import Mathlib

/-
Verification of the OBC (on-board computer) command-and-telemetry core:
a shallow embedding, in Lean 4, of the transceiver packet codec
(src/transceiver.c) and of the command execution engine
(src/command_utilities.c), together with theorems settling the claims of
the natural-language specification.

Machine integers are embedded as Nat, with explicit `% 2^w` (or bounds
hypotheses) exactly where C overflow/truncation matters.  Byte buffers are
embedded as `List Nat` holding the meaningful prefix of the C array (the
producers in the source always write the first `len` bytes and set the
matching `_len` variable, so the pair (array, len) is represented by one
list).
-/

/-! ## CRC32 (src/transceiver.c, crc32, lines 416-428)

The C source:

    uint32_t crc32(unsigned char *message, const uint8_t len) {
        uint32_t crc = 0xFFFFFFFF;
        for (uint8_t i = 0; i < len; i++) {
            uint32_t byte = message[i];
            crc = crc ^ byte;
            for (uint8_t j = 0; j < 8; j++) {
                uint32_t mask = -(crc & 1);
                crc = (crc >> 1) ^ (0xEDB88320 & mask);
            }
        }
        return ~crc;
    }
-/

/-- Two's-complement negation on a 32-bit word: `-(x)` in uint32 arithmetic. -/
def neg32 (x : Nat) : Nat := (2 ^ 32 - x) % 2 ^ 32

/-- One iteration of the inner loop of `crc32`:
`mask = -(crc & 1); crc = (crc >> 1) ^ (0xEDB88320 & mask)`. -/
def crc32_step (crc : Nat) : Nat :=
  (crc >>> 1) ^^^ (0xEDB88320 &&& neg32 (crc &&& 1))

/-- The inner `for (j = 0; j < 8; j++)` loop of `crc32`: `n` iterations of
`crc32_step`. -/
def crc32_rounds : Nat → Nat → Nat
  | 0, crc => crc
  | n + 1, crc => crc32_rounds n (crc32_step crc)

/-- One iteration of the outer loop of `crc32`: absorb one message byte
(`crc = crc ^ byte`) and run the inner loop eight times. -/
def crc32_update (crc byte : Nat) : Nat := crc32_rounds 8 (crc ^^^ byte)

/-- The outer `for (i = 0; i < len; i++)` loop of `crc32`, over the message
bytes. -/
def crc32_fold : Nat → List Nat → Nat
  | crc, [] => crc
  | crc, byte :: rest => crc32_fold (crc32_update crc byte) rest

/-- `crc32` from src/transceiver.c.  `return ~crc` is one's complement on a
32-bit word, i.e. XOR with 0xFFFFFFFF. -/
def crc32 (message : List Nat) : Nat :=
  0xFFFFFFFF ^^^ crc32_fold 0xFFFFFFFF message

/-- Reference CRC-32/ISO-HDLC, written from the specification's words:
initial value 0xFFFFFFFF, polynomial 0xEDB88320 applied LSB-first (XORed in
exactly when the low bit is set), 8 iterations per byte, final XOR with
0xFFFFFFFF. -/
def crc32_ref_bit (crc : Nat) : Nat :=
  if crc % 2 = 1 then (crc / 2) ^^^ 0xEDB88320 else crc / 2

/-- Reference per-byte transformation: XOR the byte in, then 8 LSB-first
polynomial iterations. -/
def crc32_ref_byte (crc byte : Nat) : Nat := crc32_ref_bit^[8] (crc ^^^ byte)

/-- Reference CRC-32/ISO-HDLC over a byte sequence (specification's words). -/
def crc32_ref (message : List Nat) : Nat :=
  (message.foldl crc32_ref_byte 0xFFFFFFFF) ^^^ 0xFFFFFFFF

lemma crc32_step_eq_ref_bit (crc : Nat) : crc32_step crc = crc32_ref_bit crc := by
  unfold crc32_step crc32_ref_bit neg32
  rcases Nat.mod_two_eq_zero_or_one crc with h | h
  · have h1 : crc &&& 1 = 0 := by rw [Nat.and_one_is_mod, h]
    simp [h1, Nat.shiftRight_eq_div_pow, h]
  · have h1 : crc &&& 1 = 1 := by rw [Nat.and_one_is_mod, h]
    have hmask : (2 ^ 32 - 1) % 2 ^ 32 = 2 ^ 32 - 1 := by norm_num
    have hand : 0xEDB88320 &&& 4294967295 = 0xEDB88320 := by decide
    simp [h1, hmask, hand, Nat.shiftRight_eq_div_pow, h]

lemma crc32_rounds_eq_iterate (n crc : Nat) :
    crc32_rounds n crc = crc32_ref_bit^[n] crc := by
  induction n generalizing crc with
  | zero => rfl
  | succ n ih =>
      rw [crc32_rounds, ih, crc32_step_eq_ref_bit,
        Function.iterate_succ_apply]

lemma crc32_fold_eq_foldl (l : List Nat) (crc : Nat) :
    crc32_fold crc l = l.foldl crc32_ref_byte crc := by
  induction l generalizing crc with
  | nil => rfl
  | cons b rest ih =>
      rw [crc32_fold, List.foldl_cons, ih, crc32_update, crc32_ref_byte,
        crc32_rounds_eq_iterate]

set_option maxRecDepth 8192 in
/-- C3: `crc32` is a pure function agreeing, on every byte sequence, with the
reflected CRC-32/ISO-HDLC reference (initial value 0xFFFFFFFF, polynomial
0xEDB88320 applied LSB-first, 8 iterations per byte, final XOR with
0xFFFFFFFF); the check values are crc32("123456789") = 0xCBF43926 and
crc32("") = 0x00000000. -/
theorem crc32_matches_iso_hdlc_reference :
    (∀ message : List Nat, crc32 message = crc32_ref message) ∧
    crc32 [49, 50, 51, 52, 53, 54, 55, 56, 57] = 0xCBF43926 ∧
    crc32 [] = 0x00000000 := by
  refine ⟨fun message => ?_, by decide, by decide⟩
  rw [crc32, crc32_ref, crc32_fold_eq_foldl, Nat.xor_comm]

/-! ## CRC32 injectivity facts

These support the tamper-detection half of the encode/decode claim: a
single-byte change in the checksummed bytes always changes the CRC32 value.
The key observation is that each inner-loop iteration of `crc32` is an
invertible transformation of the 32-bit state. -/

/-- Proof-side inverse of one inner-loop iteration: bit 31 of the output
records whether the polynomial was XORed in, which is exactly the low bit
of the input. -/
def crc32_unstep (d : Nat) : Nat :=
  if 2 ^ 31 ≤ d then 2 * (d ^^^ 0xEDB88320) + 1 else 2 * d

lemma xor_left_cancel {a b c : Nat} (h : a ^^^ b = a ^^^ c) : b = c := by
  have h2 : a ^^^ (a ^^^ b) = a ^^^ (a ^^^ c) := by rw [h]
  rwa [← Nat.xor_assoc, ← Nat.xor_assoc, Nat.xor_self, Nat.zero_xor,
    Nat.zero_xor] at h2

lemma xor_right_cancel {a b c : Nat} (h : a ^^^ b = c ^^^ b) : a = c := by
  have h2 : (a ^^^ b) ^^^ b = (c ^^^ b) ^^^ b := by rw [h]
  rwa [Nat.xor_assoc, Nat.xor_assoc, Nat.xor_self, Nat.xor_zero,
    Nat.xor_zero] at h2

lemma crc32_step_lt {c : Nat} (hc : c < 2 ^ 32) : crc32_step c < 2 ^ 32 := by
  rw [crc32_step_eq_ref_bit, crc32_ref_bit]
  have hdiv : c / 2 < 2 ^ 32 := by omega
  split
  · exact Nat.xor_lt_two_pow hdiv (by norm_num)
  · exact hdiv

lemma crc32_unstep_step {c : Nat} (hc : c < 2 ^ 32) :
    crc32_unstep (crc32_step c) = c := by
  rw [crc32_step_eq_ref_bit, crc32_ref_bit, crc32_unstep]
  have hdiv : c / 2 < 2 ^ 31 := by omega
  rcases Nat.mod_two_eq_zero_or_one c with h | h
  · have hno : ¬(c % 2 = 1) := by omega
    rw [if_neg hno, if_neg (show ¬(2 ^ 31 ≤ c / 2) by omega)]
    omega
  · rw [if_pos h]
    have hbit : Nat.testBit ((c / 2) ^^^ 0xEDB88320) 31 = true := by
      rw [Nat.testBit_xor, Nat.testBit_lt_two_pow hdiv]
      decide
    have hge : 2 ^ 31 ≤ (c / 2) ^^^ 0xEDB88320 := Nat.testBit_implies_ge hbit
    rw [if_pos hge, Nat.xor_assoc, Nat.xor_self, Nat.xor_zero]
    omega

lemma crc32_step_inj {c1 c2 : Nat} (h1 : c1 < 2 ^ 32) (h2 : c2 < 2 ^ 32)
    (h : crc32_step c1 = crc32_step c2) : c1 = c2 := by
  have := congrArg crc32_unstep h
  rwa [crc32_unstep_step h1, crc32_unstep_step h2] at this

lemma crc32_rounds_lt {c : Nat} (n : Nat) (hc : c < 2 ^ 32) :
    crc32_rounds n c < 2 ^ 32 := by
  induction n generalizing c with
  | zero => exact hc
  | succ n ih => exact ih (crc32_step_lt hc)

lemma crc32_rounds_inj {c1 c2 : Nat} (n : Nat) (h1 : c1 < 2 ^ 32)
    (h2 : c2 < 2 ^ 32) (h : crc32_rounds n c1 = crc32_rounds n c2) :
    c1 = c2 := by
  induction n generalizing c1 c2 with
  | zero => exact h
  | succ n ih =>
      exact crc32_step_inj h1 h2
        (ih (crc32_step_lt h1) (crc32_step_lt h2) h)

lemma crc32_update_lt {c b : Nat} (hc : c < 2 ^ 32) (hb : b < 256) :
    crc32_update c b < 2 ^ 32 :=
  crc32_rounds_lt 8 (Nat.xor_lt_two_pow hc (by omega))

lemma crc32_update_inj {c1 c2 b1 b2 : Nat} (hc1 : c1 < 2 ^ 32)
    (hc2 : c2 < 2 ^ 32) (hb1 : b1 < 256) (hb2 : b2 < 256)
    (h : crc32_update c1 b1 = crc32_update c2 b2) : c1 ^^^ b1 = c2 ^^^ b2 :=
  crc32_rounds_inj 8 (Nat.xor_lt_two_pow hc1 (by omega))
    (Nat.xor_lt_two_pow hc2 (by omega)) h

lemma crc32_fold_lt {c : Nat} {l : List Nat} (hc : c < 2 ^ 32)
    (hl : ∀ b ∈ l, b < 256) : crc32_fold c l < 2 ^ 32 := by
  induction l generalizing c with
  | nil => exact hc
  | cons b rest ih =>
      exact ih (crc32_update_lt hc (hl b (List.mem_cons_self b rest)))
        fun x hx => hl x (List.mem_cons_of_mem b hx)

lemma crc32_fold_ne {c1 c2 : Nat} {l : List Nat} (hl : ∀ b ∈ l, b < 256)
    (hc1 : c1 < 2 ^ 32) (hc2 : c2 < 2 ^ 32) (hne : c1 ≠ c2) :
    crc32_fold c1 l ≠ crc32_fold c2 l := by
  induction l generalizing c1 c2 with
  | nil => exact hne
  | cons b rest ih =>
      have hb : b < 256 := hl b (List.mem_cons_self b rest)
      refine ih (fun x hx => hl x (List.mem_cons_of_mem b hx))
        (crc32_update_lt hc1 hb) (crc32_update_lt hc2 hb) ?_
      intro h
      exact hne (xor_right_cancel (crc32_update_inj hc1 hc2 hb hb h))

lemma crc32_fold_append (c : Nat) (l1 l2 : List Nat) :
    crc32_fold c (l1 ++ l2) = crc32_fold (crc32_fold c l1) l2 := by
  induction l1 generalizing c with
  | nil => rfl
  | cons b rest ih => rw [List.cons_append, crc32_fold, crc32_fold, ih]

lemma crc32_lt {l : List Nat} (hl : ∀ b ∈ l, b < 256) : crc32 l < 2 ^ 32 :=
  Nat.xor_lt_two_pow (by norm_num) (crc32_fold_lt (by norm_num) hl)

/-- Changing exactly one byte of a message always changes its CRC32 value. -/
lemma crc32_ne_of_single_byte_change {pre suf : List Nat} {b b' : Nat}
    (hpre : ∀ x ∈ pre, x < 256) (hsuf : ∀ x ∈ suf, x < 256)
    (hb : b < 256) (hb' : b' < 256) (hne : b ≠ b') :
    crc32 (pre ++ b :: suf) ≠ crc32 (pre ++ b' :: suf) := by
  intro h
  rw [crc32, crc32] at h
  have h2 := xor_left_cancel h
  rw [crc32_fold_append, crc32_fold_append, crc32_fold, crc32_fold] at h2
  have hm : crc32_fold 0xFFFFFFFF pre < 2 ^ 32 :=
    crc32_fold_lt (by norm_num) hpre
  have hupd : crc32_update (crc32_fold 0xFFFFFFFF pre) b ≠
      crc32_update (crc32_fold 0xFFFFFFFF pre) b' := by
    intro hu
    exact hne (xor_left_cancel (crc32_update_inj hm hm hb hb' hu))
  exact crc32_fold_ne hsuf (crc32_update_lt hm hb) (crc32_update_lt hm hb')
    hupd h2

/-! ## Big-endian 32-bit byte packing helpers -/

lemma and_255_eq_mod (x : Nat) : x &&& 255 = x % 256 := by
  have h := Nat.and_pow_two_sub_one_eq_mod x 8
  norm_num at h
  exact h

lemma assemble32_eq {b3 b2 b1 b0 : Nat} (h3 : b3 < 256) (h2 : b2 < 256)
    (h1 : b1 < 256) (h0 : b0 < 256) :
    (b3 <<< 24) ||| (b2 <<< 16) ||| (b1 <<< 8) ||| b0 =
      ((b3 * 256 + b2) * 256 + b1) * 256 + b0 := by
  have e1 : b1 <<< 8 ||| b0 = 2 ^ 8 * b1 + b0 := by
    rw [Nat.shiftLeft_eq, Nat.mul_comm]
    exact (Nat.mul_add_lt_is_or (by omega) b1).symm
  have lt1 : 2 ^ 8 * b1 + b0 < 2 ^ 16 := by omega
  have e2 : b2 <<< 16 ||| (2 ^ 8 * b1 + b0) = 2 ^ 16 * b2 + (2 ^ 8 * b1 + b0) := by
    rw [Nat.shiftLeft_eq, Nat.mul_comm]
    exact (Nat.mul_add_lt_is_or lt1 b2).symm
  have lt2 : 2 ^ 16 * b2 + (2 ^ 8 * b1 + b0) < 2 ^ 24 := by omega
  have e3 : b3 <<< 24 ||| (2 ^ 16 * b2 + (2 ^ 8 * b1 + b0)) =
      2 ^ 24 * b3 + (2 ^ 16 * b2 + (2 ^ 8 * b1 + b0)) := by
    rw [Nat.shiftLeft_eq, Nat.mul_comm]
    exact (Nat.mul_add_lt_is_or lt2 b3).symm
  rw [Nat.or_assoc, Nat.or_assoc, e1, e2, e3]
  ring

lemma assemble32_inj {b3 b2 b1 b0 a3 a2 a1 a0 : Nat} (h3 : b3 < 256)
    (h2 : b2 < 256) (h1 : b1 < 256) (h0 : b0 < 256) (g3 : a3 < 256)
    (g2 : a2 < 256) (g1 : a1 < 256) (g0 : a0 < 256)
    (h : (b3 <<< 24) ||| (b2 <<< 16) ||| (b1 <<< 8) ||| b0 =
      (a3 <<< 24) ||| (a2 <<< 16) ||| (a1 <<< 8) ||| a0) :
    b3 = a3 ∧ b2 = a2 ∧ b1 = a1 ∧ b0 = a0 := by
  rw [assemble32_eq h3 h2 h1 h0, assemble32_eq g3 g2 g1 g0] at h
  omega

lemma be32_disassemble_assemble {x : Nat} (hx : x < 2 ^ 32) :
    (((x >>> 24) &&& 255) <<< 24) ||| (((x >>> 16) &&& 255) <<< 16) |||
      (((x >>> 8) &&& 255) <<< 8) ||| (x &&& 255) = x := by
  rw [assemble32_eq (by rw [and_255_eq_mod]; omega)
    (by rw [and_255_eq_mod]; omega) (by rw [and_255_eq_mod]; omega)
    (by rw [and_255_eq_mod]; omega)]
  rw [and_255_eq_mod, and_255_eq_mod, and_255_eq_mod, and_255_eq_mod,
    Nat.shiftRight_eq_div_pow, Nat.shiftRight_eq_div_pow,
    Nat.shiftRight_eq_div_pow]
  omega

/-! ## Transceiver packet protocol state (src/transceiver.c)

Each C buffer `(array, len, avail)` is embedded as the list of its first
`len` bytes together with the `avail` flag.  The producers in the source
always write exactly the first `len` bytes before setting `len`, so no
information is lost. -/

structure TransState where
  trans_rx_enc_msg : List Nat
  trans_rx_enc_avail : Bool
  trans_rx_dec_msg : List Nat
  trans_rx_dec_avail : Bool
  trans_tx_ack_cmd_id : Nat
  trans_tx_ack_status : Nat
  trans_tx_ack_avail : Bool
  trans_tx_dec_msg : List Nat
  trans_tx_dec_avail : Bool
  trans_tx_enc_msg : List Nat
  trans_tx_enc_avail : Bool
deriving DecidableEq

/-- Initial values of the transceiver globals (src/transceiver.c lines
66-93): zeroed buffers, `trans_tx_ack_status = 0xFF`, all flags false. -/
def init_trans_state : TransState :=
  ⟨[], false, [], false, 0, 0xFF, false, [], false, [], false⟩

/-- Modelled from the spec: the packet delimiter byte.  The constant
`TRANS_PKT_DELIMITER` is not defined in the sources provided (its header is
missing); spec section 6 fixes it as 0x00. -/
def TRANS_PKT_DELIMITER : Nat := 0x00

/-- Modelled from the spec: acknowledgment command id used when the faulty
request's id is unknown.  The numeric value is not in the sources provided;
only its identity matters here. -/
def CMD_CMD_ID_UNKNOWN : Nat := 0

/-- Modelled from the spec: ack status codes (spec section 6 lists ok,
unknown-command, invalid-length, invalid-checksum, invalid-encoding-format).
Their numeric values are not in the sources provided; they are chosen
distinct, which is all the claims use. -/
def CMD_ACK_STATUS_OK : Nat := 0

/-- Modelled from the spec: ack status for an unknown command. -/
def CMD_ACK_STATUS_UNKNOWN_CMD : Nat := 1

/-- Modelled from the spec: ack status for an invalid length byte. -/
def CMD_ACK_STATUS_INVALID_LEN : Nat := 2

/-- Modelled from the spec: ack status for an invalid checksum. -/
def CMD_ACK_STATUS_INVALID_CSUM : Nat := 3

/-- Modelled from the spec: ack status for an invalid encoded format. -/
def CMD_ACK_STATUS_INVALID_ENC_FMT : Nat := 4

/-- `add_trans_tx_ack` (src/transceiver.c lines 241-247): overwrite the
single-slot pending acknowledgment record. -/
def add_trans_tx_ack (cmd_id status : Nat) (s : TransState) : TransState :=
  { s with trans_tx_ack_cmd_id := cmd_id, trans_tx_ack_status := status,
           trans_tx_ack_avail := true }

/-- `decode_trans_rx_msg` (src/transceiver.c lines 256-318), parametrized by
`rxDecMax = TRANS_RX_DEC_MSG_MAX_SIZE` (numeric value not in the sources
provided).  The C locals `enc_len` and `dec_len` are uint8; the length
comparison `dec_len != enc_len - 9` is int arithmetic (both operands are
promoted), embedded with Int subtraction.  `checksum_bytes` is the local
array of size `rxDecMax + 1`, zero-initialized, whose entries `1+i` are
filled from the payload for `i < dec_len` while in bounds; `crc32` then
reads its first `1 + dec_len` entries.  (For `dec_len ≤ rxDecMax`, as in
every run reachable from the scan path, that read is in bounds.) -/
def decode_trans_rx_msg (rxDecMax : Nat) (s : TransState) : TransState :=
  if !s.trans_rx_enc_avail then s else
  let s1 := { s with trans_rx_enc_avail := false }
  let enc_len : Nat := s1.trans_rx_enc_msg.length
  let dec_len : Nat := s1.trans_rx_enc_msg.getD 1 0
  if (dec_len : Int) ≠ (enc_len : Int) - 9 then
    add_trans_tx_ack CMD_CMD_ID_UNKNOWN CMD_ACK_STATUS_INVALID_LEN s1
  else
    let actual_checksum :=
      (s1.trans_rx_enc_msg.getD (enc_len - 5) 0 <<< 24) |||
      (s1.trans_rx_enc_msg.getD (enc_len - 4) 0 <<< 16) |||
      (s1.trans_rx_enc_msg.getD (enc_len - 3) 0 <<< 8) |||
      (s1.trans_rx_enc_msg.getD (enc_len - 2) 0 <<< 0)
    let checksum_bytes :=
      dec_len :: (List.range rxDecMax).map
        (fun i => if i < dec_len then s1.trans_rx_enc_msg.getD (3 + i) 0 else 0)
    let expected_checksum := crc32 (checksum_bytes.take (1 + dec_len))
    if expected_checksum ≠ actual_checksum then
      add_trans_tx_ack CMD_CMD_ID_UNKNOWN CMD_ACK_STATUS_INVALID_CSUM s1
    else
      { s1 with
        trans_rx_dec_msg :=
          (List.range dec_len).map (fun i => s1.trans_rx_enc_msg.getD (3 + i) 0),
        trans_rx_dec_avail := true }

/-- `encode_trans_tx_msg` (src/transceiver.c lines 321-375), parametrized by
`txDecMax = TRANS_TX_DEC_MSG_MAX_SIZE` (numeric value not in the sources
provided; the C buffer sizes require `txDecMax + 9 ≤ 255`, so the uint8
`enc_len = dec_len + 9` does not wrap).  The encoded buffer's bytes
0..enc_len-1 are written contiguously: delimiters at 0, 2, enc_len-6 and
enc_len-1, the length byte at 1, the payload at 3.., and the big-endian
CRC32 at enc_len-5..enc_len-2. -/
def encode_trans_tx_msg (txDecMax : Nat) (s : TransState) : TransState :=
  if !s.trans_tx_dec_avail then s else
  let s1 := { s with trans_tx_dec_avail := false }
  if s1.trans_tx_dec_msg.length = 0 ∨ s1.trans_tx_dec_msg.length > txDecMax then s1 else
  let dec_len := s1.trans_tx_dec_msg.length
  let checksum_buf :=
    dec_len :: (List.range txDecMax).map
      (fun i => if i < dec_len then s1.trans_tx_dec_msg.getD i 0 else 0)
  let checksum := crc32 (checksum_buf.take (1 + dec_len))
  { s1 with
    trans_tx_enc_msg :=
      [TRANS_PKT_DELIMITER, dec_len, TRANS_PKT_DELIMITER] ++
      s1.trans_tx_dec_msg ++
      [TRANS_PKT_DELIMITER,
       (checksum >>> 24) &&& 0xFF, (checksum >>> 16) &&& 0xFF,
       (checksum >>> 8) &&& 0xFF, (checksum >>> 0) &&& 0xFF,
       TRANS_PKT_DELIMITER],
    trans_tx_enc_avail := true }

/-! ### List helper lemmas for the codec proofs -/

lemma take_map_range {α : Type} (f : Nat → α) {L M : Nat} (h : L ≤ M) :
    ((List.range M).map f).take L = (List.range L).map f := by
  apply List.ext_getElem?
  intro i
  by_cases hi : i < L
  · rw [List.getElem?_take_of_lt hi]
    rw [List.getElem?_map, List.getElem?_map, List.getElem?_range hi,
      List.getElem?_range (by omega)]
  · rw [List.getElem?_eq_none, List.getElem?_eq_none]
    · simp; omega
    · simp; omega

lemma map_range_guard_eq (g : Nat → Nat) (L : Nat) :
    (List.range L).map (fun i => if i < L then g i else 0) =
      (List.range L).map g := by
  apply List.map_congr_left
  intro i hi
  rw [List.mem_range] at hi
  rw [if_pos hi]

lemma map_range_getD_eq (A B C : List Nat) :
    (List.range B.length).map (fun i => (A ++ (B ++ C)).getD (A.length + i) 0) =
      B := by
  apply List.ext_getElem?
  intro i
  rw [List.getElem?_map]
  by_cases hi : i < B.length
  · rw [List.getElem?_range hi, Option.map_some']
    rw [List.getD_eq_getElem?_getD,
      List.getElem?_append_right (by omega), Nat.add_sub_cancel_left,
      List.getElem?_append_left hi, List.getElem?_eq_getElem hi]
    rfl
  · rw [List.getElem?_eq_none (by simpa using hi), Option.map_none',
      List.getElem?_eq_none (by omega)]

/-! ### Characterizing the branches of decode_trans_rx_msg -/

lemma decode_eq_invalid_len (M : Nat) (s : TransState)
    (hAvail : s.trans_rx_enc_avail = true)
    (h : (s.trans_rx_enc_msg.getD 1 0 : Int) ≠ (s.trans_rx_enc_msg.length : Int) - 9) :
    decode_trans_rx_msg M s =
      add_trans_tx_ack CMD_CMD_ID_UNKNOWN CMD_ACK_STATUS_INVALID_LEN
        { s with trans_rx_enc_avail := false } := by
  rw [decode_trans_rx_msg, hAvail]
  simp only [Bool.not_true, if_neg (by simp : ¬(false = true))]
  exact if_pos h

lemma decode_eq_csum_branch (M : Nat) (s : TransState)
    (hAvail : s.trans_rx_enc_avail = true)
    (h : (s.trans_rx_enc_msg.getD 1 0 : Int) = (s.trans_rx_enc_msg.length : Int) - 9) :
    decode_trans_rx_msg M s =
      (if crc32 ((s.trans_rx_enc_msg.getD 1 0 ::
            (List.range M).map (fun i =>
              if i < s.trans_rx_enc_msg.getD 1 0 then s.trans_rx_enc_msg.getD (3 + i) 0 else 0)).take
            (1 + s.trans_rx_enc_msg.getD 1 0)) ≠
          ((s.trans_rx_enc_msg.getD (s.trans_rx_enc_msg.length - 5) 0 <<< 24) |||
           (s.trans_rx_enc_msg.getD (s.trans_rx_enc_msg.length - 4) 0 <<< 16) |||
           (s.trans_rx_enc_msg.getD (s.trans_rx_enc_msg.length - 3) 0 <<< 8) |||
           (s.trans_rx_enc_msg.getD (s.trans_rx_enc_msg.length - 2) 0 <<< 0)) then
        add_trans_tx_ack CMD_CMD_ID_UNKNOWN CMD_ACK_STATUS_INVALID_CSUM
          { s with trans_rx_enc_avail := false }
      else
        { s with trans_rx_enc_avail := false,
                 trans_rx_dec_msg := (List.range (s.trans_rx_enc_msg.getD 1 0)).map
                   (fun i => s.trans_rx_enc_msg.getD (3 + i) 0),
                 trans_rx_dec_avail := true }) := by
  rw [decode_trans_rx_msg, hAvail]
  simp only [Bool.not_true, if_neg (by simp : ¬(false = true))]
  rw [if_neg (by exact fun hc => hc h)]

lemma decode_expected_clean (M : Nat) (enc : List Nat) (hM : enc.getD 1 0 ≤ M) :
    crc32 ((enc.getD 1 0 :: (List.range M).map (fun i =>
        if i < enc.getD 1 0 then enc.getD (3 + i) 0 else 0)).take (1 + enc.getD 1 0)) =
    crc32 (enc.getD 1 0 :: (List.range (enc.getD 1 0)).map (fun i => enc.getD (3 + i) 0)) := by
  rw [Nat.add_comm, List.take_succ_cons, take_map_range _ hM, map_range_guard_eq]

/-- C4: when an encoded packet is available, `decode_trans_rx_msg` NACKs
with invalid-length exactly when the declared length byte differs from the
encoded length minus 9; otherwise it NACKs with invalid-checksum exactly
when CRC32 of the length byte followed by the payload differs from the
value of the 4 big-endian checksum bytes preceding the trailing delimiter;
in both rejection cases the decoded buffer stays unavailable and the
encoded packet is consumed. -/
theorem decode_trans_rx_msg_error_handling (M : Nat) (s : TransState)
    (hAvail : s.trans_rx_enc_avail = true)
    (hDec : s.trans_rx_dec_avail = false)
    (hAck : s.trans_tx_ack_avail = false)
    (hLen : s.trans_rx_enc_msg.length ≤ M + 9) :
    (decode_trans_rx_msg M s).trans_rx_enc_avail = false ∧
    (((decode_trans_rx_msg M s).trans_tx_ack_avail = true ∧
      (decode_trans_rx_msg M s).trans_tx_ack_status = CMD_ACK_STATUS_INVALID_LEN) ↔
        (s.trans_rx_enc_msg.getD 1 0 : Int) ≠ (s.trans_rx_enc_msg.length : Int) - 9) ∧
    (((decode_trans_rx_msg M s).trans_tx_ack_avail = true ∧
      (decode_trans_rx_msg M s).trans_tx_ack_status = CMD_ACK_STATUS_INVALID_CSUM) ↔
        ((s.trans_rx_enc_msg.getD 1 0 : Int) = (s.trans_rx_enc_msg.length : Int) - 9 ∧
         crc32 (s.trans_rx_enc_msg.getD 1 0 ::
             (List.range (s.trans_rx_enc_msg.getD 1 0)).map
               (fun i => s.trans_rx_enc_msg.getD (3 + i) 0)) ≠
           (s.trans_rx_enc_msg.getD (s.trans_rx_enc_msg.length - 5) 0 <<< 24) |||
           (s.trans_rx_enc_msg.getD (s.trans_rx_enc_msg.length - 4) 0 <<< 16) |||
           (s.trans_rx_enc_msg.getD (s.trans_rx_enc_msg.length - 3) 0 <<< 8) |||
           (s.trans_rx_enc_msg.getD (s.trans_rx_enc_msg.length - 2) 0 <<< 0))) ∧
    ((decode_trans_rx_msg M s).trans_tx_ack_avail = true →
      (decode_trans_rx_msg M s).trans_rx_dec_avail = false) := by
  by_cases hlen : (s.trans_rx_enc_msg.getD 1 0 : Int) = (s.trans_rx_enc_msg.length : Int) - 9
  · have hM : s.trans_rx_enc_msg.getD 1 0 ≤ M := by omega
    rw [decode_eq_csum_branch M s hAvail hlen, decode_expected_clean M _ hM]
    by_cases hcs : crc32 (s.trans_rx_enc_msg.getD 1 0 ::
        (List.range (s.trans_rx_enc_msg.getD 1 0)).map
          (fun i => s.trans_rx_enc_msg.getD (3 + i) 0)) =
        (s.trans_rx_enc_msg.getD (s.trans_rx_enc_msg.length - 5) 0 <<< 24) |||
        (s.trans_rx_enc_msg.getD (s.trans_rx_enc_msg.length - 4) 0 <<< 16) |||
        (s.trans_rx_enc_msg.getD (s.trans_rx_enc_msg.length - 3) 0 <<< 8) |||
        (s.trans_rx_enc_msg.getD (s.trans_rx_enc_msg.length - 2) 0 <<< 0)
    · rw [if_neg (not_not_intro hcs)]
      refine ⟨rfl, ?_, ?_, ?_⟩
      · apply iff_of_false
        · rintro ⟨h1, _⟩
          have h2 : s.trans_tx_ack_avail = true := h1
          rw [hAck] at h2
          exact Bool.false_ne_true h2
        · exact not_not_intro hlen
      · apply iff_of_false
        · rintro ⟨h1, _⟩
          have h2 : s.trans_tx_ack_avail = true := h1
          rw [hAck] at h2
          exact Bool.false_ne_true h2
        · rintro ⟨_, hne⟩
          exact hne hcs
      · intro h1
        have h2 : s.trans_tx_ack_avail = true := h1
        rw [hAck] at h2
        exact absurd h2 Bool.false_ne_true
    · rw [if_pos hcs]
      refine ⟨rfl, ?_, ?_, ?_⟩
      · apply iff_of_false
        · rintro ⟨_, h2⟩
          have h3 : CMD_ACK_STATUS_INVALID_CSUM = CMD_ACK_STATUS_INVALID_LEN := h2
          exact absurd h3 (by decide)
        · exact not_not_intro hlen
      · exact iff_of_true ⟨rfl, rfl⟩ ⟨hlen, hcs⟩
      · intro _
        exact hDec
  · rw [decode_eq_invalid_len M s hAvail hlen]
    refine ⟨rfl, ?_, ?_, ?_⟩
    · exact iff_of_true ⟨rfl, rfl⟩ hlen
    · apply iff_of_false
      · rintro ⟨_, h2⟩
        have h3 : CMD_ACK_STATUS_INVALID_LEN = CMD_ACK_STATUS_INVALID_CSUM := h2
        exact absurd h3 (by decide)
      · rintro ⟨h1, _⟩
        exact hlen h1
    · intro _
      exact hDec

/-- Witness for C4: the error-handling theorem applied to a concrete
3-byte (hence invalid-length) packet. -/
theorem decode_trans_rx_msg_error_handling_witness :
    (decode_trans_rx_msg 9 { init_trans_state with
        trans_rx_enc_msg := [0, 0, 0],
        trans_rx_enc_avail := true }).trans_rx_enc_avail = false ∧
    (((decode_trans_rx_msg 9 { init_trans_state with
        trans_rx_enc_msg := [0, 0, 0],
        trans_rx_enc_avail := true }).trans_tx_ack_avail = true ∧
      (decode_trans_rx_msg 9 { init_trans_state with
        trans_rx_enc_msg := [0, 0, 0],
        trans_rx_enc_avail := true }).trans_tx_ack_status = CMD_ACK_STATUS_INVALID_LEN) ↔
        (([0, 0, 0] : List Nat).getD 1 0 : Int) ≠ (([0, 0, 0] : List Nat).length : Int) - 9) ∧
    (((decode_trans_rx_msg 9 { init_trans_state with
        trans_rx_enc_msg := [0, 0, 0],
        trans_rx_enc_avail := true }).trans_tx_ack_avail = true ∧
      (decode_trans_rx_msg 9 { init_trans_state with
        trans_rx_enc_msg := [0, 0, 0],
        trans_rx_enc_avail := true }).trans_tx_ack_status = CMD_ACK_STATUS_INVALID_CSUM) ↔
        ((([0, 0, 0] : List Nat).getD 1 0 : Int) = (([0, 0, 0] : List Nat).length : Int) - 9 ∧
         crc32 (([0, 0, 0] : List Nat).getD 1 0 ::
             (List.range (([0, 0, 0] : List Nat).getD 1 0)).map
               (fun i => ([0, 0, 0] : List Nat).getD (3 + i) 0)) ≠
           (([0, 0, 0] : List Nat).getD (([0, 0, 0] : List Nat).length - 5) 0 <<< 24) |||
           (([0, 0, 0] : List Nat).getD (([0, 0, 0] : List Nat).length - 4) 0 <<< 16) |||
           (([0, 0, 0] : List Nat).getD (([0, 0, 0] : List Nat).length - 3) 0 <<< 8) |||
           (([0, 0, 0] : List Nat).getD (([0, 0, 0] : List Nat).length - 2) 0 <<< 0))) ∧
    ((decode_trans_rx_msg 9 { init_trans_state with
        trans_rx_enc_msg := [0, 0, 0],
        trans_rx_enc_avail := true }).trans_tx_ack_avail = true →
      (decode_trans_rx_msg 9 { init_trans_state with
        trans_rx_enc_msg := [0, 0, 0],
        trans_rx_enc_avail := true }).trans_rx_dec_avail = false) :=
  decode_trans_rx_msg_error_handling 9
    { init_trans_state with trans_rx_enc_msg := [0, 0, 0], trans_rx_enc_avail := true }
    rfl rfl rfl (by decide)

/-! ### Encode / decode round trip and tamper rejection -/

lemma getD_set_ne (l : List Nat) {i j : Nat} (v : Nat) (h : i ≠ j) :
    (l.set i v).getD j 0 = l.getD j 0 := by
  rw [List.getD_eq_getElem?_getD, List.getD_eq_getElem?_getD,
    List.getElem?_set_ne h]

lemma getD_set_self (l : List Nat) {i : Nat} (v : Nat) (h : i < l.length) :
    (l.set i v).getD i 0 = v := by
  rw [List.getD_eq_getElem?_getD, List.getElem?_set_self h]
  rfl

lemma map_range_getD_self (B : List Nat) :
    (List.range B.length).map (fun i => B.getD i 0) = B := by
  apply List.ext_getElem?
  intro i
  rw [List.getElem?_map]
  by_cases hi : i < B.length
  · rw [List.getElem?_range hi, Option.map_some', List.getD_eq_getElem?_getD,
      List.getElem?_eq_getElem hi]
    rfl
  · rw [List.getElem?_eq_none (by simpa using hi), Option.map_none',
      List.getElem?_eq_none (by omega)]

lemma encode_checksum_clean (M : Nat) (msg : List Nat) (h : msg.length ≤ M) :
    crc32 ((msg.length :: (List.range M).map (fun i =>
        if i < msg.length then msg.getD i 0 else 0)).take (1 + msg.length)) =
    crc32 (msg.length :: msg) := by
  rw [Nat.add_comm, List.take_succ_cons, take_map_range _ h, map_range_guard_eq,
    map_range_getD_self]

lemma pkt_getD_payload {B : List Nat} (a b c : Nat) (C : List Nat) {k : Nat}
    (h : k < B.length) :
    (([a, b, c] ++ B) ++ C).getD (3 + k) 0 = B.getD k 0 := by
  rw [List.getD_eq_getElem?_getD, List.getD_eq_getElem?_getD,
    List.getElem?_append_left (by simp; omega),
    show ([a, b, c] ++ B) = [a, b, c] ++ B from rfl,
    List.getElem?_append_right (by simp)]
  simp [Nat.add_comm]

lemma pkt_getD_tail (a b c : Nat) (B C : List Nat) (k : Nat) :
    (([a, b, c] ++ B) ++ C).getD (3 + B.length + k) 0 = C.getD k 0 := by
  rw [List.getD_eq_getElem?_getD, List.getD_eq_getElem?_getD,
    List.getElem?_append_right (by simp; omega),
    show 3 + B.length + k - ([a, b, c] ++ B).length = k from by simp; omega]

lemma map_range_payload (a b c : Nat) (B C : List Nat) :
    (List.range B.length).map (fun i => (([a, b, c] ++ B) ++ C).getD (3 + i) 0) = B := by
  rw [List.map_congr_left (fun i hi => pkt_getD_payload a b c C (List.mem_range.mp hi)),
    map_range_getD_self]

lemma encode_packet_eq (M : Nat) (p : List Nat)
    (h1 : p.length ≠ 0) (h2 : p.length ≤ M) :
    encode_trans_tx_msg M
      { init_trans_state with trans_tx_dec_msg := p, trans_tx_dec_avail := true } =
    { init_trans_state with
      trans_tx_dec_msg := p,
      trans_tx_dec_avail := false,
      trans_tx_enc_msg :=
        [TRANS_PKT_DELIMITER, p.length, TRANS_PKT_DELIMITER] ++ p ++
        [TRANS_PKT_DELIMITER,
         (crc32 (p.length :: p) >>> 24) &&& 0xFF,
         (crc32 (p.length :: p) >>> 16) &&& 0xFF,
         (crc32 (p.length :: p) >>> 8) &&& 0xFF,
         (crc32 (p.length :: p) >>> 0) &&& 0xFF,
         TRANS_PKT_DELIMITER],
      trans_tx_enc_avail := true } := by
  rw [encode_trans_tx_msg]
  simp only [Bool.not_true, if_neg (by simp : ¬(false = true))]
  rw [if_neg (by push_neg; exact ⟨h1, by omega⟩)]
  rw [encode_checksum_clean M p h2]

set_option maxRecDepth 4096 in
set_option maxHeartbeats 1000000 in
lemma decode_of_encoded (M : Nat) (p : List Nat)
    (hp : ∀ b ∈ p, b < 256) (h1 : 1 ≤ p.length) (h2 : p.length ≤ M)
    (hM : M ≤ 246) :
    decode_trans_rx_msg M
      { init_trans_state with
        trans_rx_enc_msg :=
          [TRANS_PKT_DELIMITER, p.length, TRANS_PKT_DELIMITER] ++ p ++
          [TRANS_PKT_DELIMITER,
           (crc32 (p.length :: p) >>> 24) &&& 0xFF,
           (crc32 (p.length :: p) >>> 16) &&& 0xFF,
           (crc32 (p.length :: p) >>> 8) &&& 0xFF,
           (crc32 (p.length :: p) >>> 0) &&& 0xFF,
           TRANS_PKT_DELIMITER],
        trans_rx_enc_avail := true } =
    { init_trans_state with
      trans_rx_enc_msg :=
        [TRANS_PKT_DELIMITER, p.length, TRANS_PKT_DELIMITER] ++ p ++
        [TRANS_PKT_DELIMITER,
         (crc32 (p.length :: p) >>> 24) &&& 0xFF,
         (crc32 (p.length :: p) >>> 16) &&& 0xFF,
         (crc32 (p.length :: p) >>> 8) &&& 0xFF,
         (crc32 (p.length :: p) >>> 0) &&& 0xFF,
         TRANS_PKT_DELIMITER],
      trans_rx_enc_avail := false,
      trans_rx_dec_msg := p,
      trans_rx_dec_avail := true } := by
  set c := crc32 (p.length :: p) with hc
  set tail : List Nat := [TRANS_PKT_DELIMITER, (c >>> 24) &&& 0xFF, (c >>> 16) &&& 0xFF,
    (c >>> 8) &&& 0xFF, (c >>> 0) &&& 0xFF, TRANS_PKT_DELIMITER] with htail
  set enc : List Nat := [TRANS_PKT_DELIMITER, p.length, TRANS_PKT_DELIMITER] ++ p ++ tail
    with henc
  have hlenc : enc.length = p.length + 9 := by
    rw [henc, htail]
    simp [List.length_append]
  have hgd1 : enc.getD 1 0 = p.length := by
    rw [henc]
    rfl
  have hlenInt : ((enc.getD 1 0 : Nat) : Int) = (enc.length : Int) - 9 := by
    rw [hgd1, hlenc]
    push_cast
    ring
  rw [decode_eq_csum_branch M _ rfl hlenInt]
  simp only [init_trans_state]
  rw [decode_expected_clean M enc (by rw [hgd1]; exact h2), hgd1, hlenc]
  rw [show p.length + 9 - 5 = 3 + p.length + 1 from by omega,
    show p.length + 9 - 4 = 3 + p.length + 2 from by omega,
    show p.length + 9 - 3 = 3 + p.length + 3 from by omega,
    show p.length + 9 - 2 = 3 + p.length + 4 from by omega]
  rw [henc, htail]
  rw [map_range_payload, pkt_getD_tail, pkt_getD_tail, pkt_getD_tail, pkt_getD_tail]
  have hcb : c < 2 ^ 32 := by
    rw [hc]
    apply crc32_lt
    intro b hb
    rcases List.mem_cons.mp hb with h | h
    · omega
    · exact hp b h
  simp only [List.getD_cons_zero, List.getD_cons_succ]
  simp only [Nat.shiftRight_zero, Nat.shiftLeft_zero, be32_disassemble_assemble hcb,
    ← hc]
  rw [if_neg (not_not_intro rfl)]

lemma getD_eq_getElem_of_lt (l : List Nat) {k : Nat} (h : k < l.length) :
    l.getD k 0 = l[k] := by
  rw [List.getD_eq_getElem?_getD, List.getElem?_eq_getElem h]
  rfl

lemma crc32_cons_set_ne {p : List Nat} {k v L : Nat} (hk : k < p.length)
    (hL : L < 256) (hp : ∀ b ∈ p, b < 256) (hv : v < 256)
    (hne : v ≠ p.getD k 0) :
    crc32 (L :: p.set k v) ≠ crc32 (L :: p) := by
  have hpk : p.getD k 0 = p[k] := getD_eq_getElem_of_lt p hk
  have hsplit : L :: p = (L :: p.take k) ++ p.getD k 0 :: p.drop (k + 1) := by
    rw [hpk, List.cons_append]
    congr 1
    conv_lhs => rw [← List.take_append_drop k p]
    rw [List.drop_eq_getElem_cons hk]
  have hset : L :: p.set k v = (L :: p.take k) ++ v :: p.drop (k + 1) := by
    rw [List.set_eq_take_cons_drop v hk, List.cons_append]
  rw [hsplit, hset]
  apply crc32_ne_of_single_byte_change
  · intro x hx
    rcases List.mem_cons.mp hx with h | h
    · omega
    · exact hp x (List.take_subset k p h)
  · intro x hx
    exact hp x (List.drop_subset (k + 1) p hx)
  · exact hv
  · rw [hpk]
    exact hp p[k] (List.getElem_mem hk)
  · exact hne

lemma map_range_payload_set {B : List Nat} (a b c : Nat) (C : List Nat)
    {k : Nat} (v : Nat) (hk : k < B.length) :
    (List.range B.length).map
      (fun j => ((([a, b, c] ++ B) ++ C).set (3 + k) v).getD (3 + j) 0) =
      B.set k v := by
  apply List.ext_getElem?
  intro j
  rw [List.getElem?_map]
  by_cases hj : j < B.length
  · rw [List.getElem?_range hj, Option.map_some']
    by_cases hjk : j = k
    · subst hjk
      rw [getD_set_self _ v (by simp; omega), List.getElem?_set_self (by omega)]
    · rw [getD_set_ne _ v (by omega), List.getElem?_set_ne (by omega),
        pkt_getD_payload a b c C hj, List.getElem?_eq_getElem hj,
        getD_eq_getElem_of_lt B hj]
  · rw [List.getElem?_eq_none (by simpa using hj), Option.map_none',
      List.getElem?_eq_none (by simp; omega)]

lemma map_range_payload_set_ne {B : List Nat} (a b c : Nat) (C : List Nat)
    {i : Nat} (v : Nat) (hi : 3 + B.length ≤ i) :
    (List.range B.length).map
      (fun j => ((([a, b, c] ++ B) ++ C).set i v).getD (3 + j) 0) = B := by
  rw [List.map_congr_left (fun j hj => ?_), map_range_getD_self (B := B)]
  rw [getD_set_ne _ v (by rw [List.mem_range] at hj; omega)]
  exact pkt_getD_payload a b c C (List.mem_range.mp hj)

set_option maxRecDepth 4096 in
set_option maxHeartbeats 1000000 in
lemma decode_of_tampered (M : Nat) (p : List Nat) (i v : Nat)
    (hp : ∀ b ∈ p, b < 256) (h1 : 1 ≤ p.length) (h2 : p.length ≤ M)
    (hM : M ≤ 246) (hv : v < 256)
    (hi : (3 ≤ i ∧ i < 3 + p.length) ∨ (4 + p.length ≤ i ∧ i < 8 + p.length))
    (hne : v ≠ ([TRANS_PKT_DELIMITER, p.length, TRANS_PKT_DELIMITER] ++ p ++
        [TRANS_PKT_DELIMITER,
         (crc32 (p.length :: p) >>> 24) &&& 0xFF,
         (crc32 (p.length :: p) >>> 16) &&& 0xFF,
         (crc32 (p.length :: p) >>> 8) &&& 0xFF,
         (crc32 (p.length :: p) >>> 0) &&& 0xFF,
         TRANS_PKT_DELIMITER]).getD i 0) :
    decode_trans_rx_msg M
      { init_trans_state with
        trans_rx_enc_msg :=
          ([TRANS_PKT_DELIMITER, p.length, TRANS_PKT_DELIMITER] ++ p ++
           [TRANS_PKT_DELIMITER,
            (crc32 (p.length :: p) >>> 24) &&& 0xFF,
            (crc32 (p.length :: p) >>> 16) &&& 0xFF,
            (crc32 (p.length :: p) >>> 8) &&& 0xFF,
            (crc32 (p.length :: p) >>> 0) &&& 0xFF,
            TRANS_PKT_DELIMITER]).set i v,
        trans_rx_enc_avail := true } =
    add_trans_tx_ack CMD_CMD_ID_UNKNOWN CMD_ACK_STATUS_INVALID_CSUM
      { init_trans_state with
        trans_rx_enc_msg :=
          ([TRANS_PKT_DELIMITER, p.length, TRANS_PKT_DELIMITER] ++ p ++
           [TRANS_PKT_DELIMITER,
            (crc32 (p.length :: p) >>> 24) &&& 0xFF,
            (crc32 (p.length :: p) >>> 16) &&& 0xFF,
            (crc32 (p.length :: p) >>> 8) &&& 0xFF,
            (crc32 (p.length :: p) >>> 0) &&& 0xFF,
            TRANS_PKT_DELIMITER]).set i v,
        trans_rx_enc_avail := false } := by
  set c := crc32 (p.length :: p) with hc
  set tail : List Nat := [TRANS_PKT_DELIMITER, (c >>> 24) &&& 0xFF, (c >>> 16) &&& 0xFF,
    (c >>> 8) &&& 0xFF, (c >>> 0) &&& 0xFF, TRANS_PKT_DELIMITER] with htail
  set enc : List Nat := [TRANS_PKT_DELIMITER, p.length, TRANS_PKT_DELIMITER] ++ p ++ tail
    with henc
  have hcb : c < 2 ^ 32 := by
    rw [hc]
    apply crc32_lt
    intro b hb
    rcases List.mem_cons.mp hb with h | h
    · omega
    · exact hp b h
  have hlenc : enc.length = p.length + 9 := by
    rw [henc, htail]
    simp [List.length_append]
  have hiB : i < 8 + p.length := by rcases hi with ⟨_, h⟩ | ⟨_, h⟩ <;> omega
  have hgd1 : enc.getD 1 0 = p.length := by
    rw [henc]
    rfl
  have hlset : (enc.set i v).length = p.length + 9 := by
    rw [List.length_set, hlenc]
  have hgd1s : (enc.set i v).getD 1 0 = p.length := by
    rw [getD_set_ne _ _ (by rcases hi with ⟨h, _⟩ | ⟨h, _⟩ <;> omega), hgd1]
  have hlenInt : (((enc.set i v).getD 1 0 : Nat) : Int) =
      ((enc.set i v).length : Int) - 9 := by
    rw [hgd1s, hlset]
    push_cast
    ring
  rw [decode_eq_csum_branch M _ rfl hlenInt]
  simp only [init_trans_state]
  rw [decode_expected_clean M _ (by rw [hgd1s]; exact h2), hgd1s, hlset]
  rw [show p.length + 9 - 5 = 3 + p.length + 1 from by omega,
    show p.length + 9 - 4 = 3 + p.length + 2 from by omega,
    show p.length + 9 - 3 = 3 + p.length + 3 from by omega,
    show p.length + 9 - 2 = 3 + p.length + 4 from by omega]
  rw [if_pos ?_]
  rcases hi with ⟨hi3, hiU⟩ | ⟨hi4, hiU⟩
  · -- a payload byte was changed: the recomputed CRC differs
    obtain ⟨k, rfl⟩ : ∃ k, i = 3 + k := ⟨i - 3, by omega⟩
    have hk : k < p.length := by omega
    have hneP : v ≠ p.getD k 0 := by
      intro hvk
      apply hne
      rw [henc, pkt_getD_payload TRANS_PKT_DELIMITER p.length TRANS_PKT_DELIMITER tail hk]
      exact hvk
    rw [henc]
    rw [map_range_payload_set TRANS_PKT_DELIMITER p.length TRANS_PKT_DELIMITER tail v hk]
    rw [getD_set_ne _ v (by omega), getD_set_ne _ v (by omega),
      getD_set_ne _ v (by omega), getD_set_ne _ v (by omega)]
    rw [pkt_getD_tail, pkt_getD_tail, pkt_getD_tail, pkt_getD_tail, htail]
    simp only [List.getD_cons_zero, List.getD_cons_succ]
    simp only [Nat.shiftRight_zero, Nat.shiftLeft_zero,
      be32_disassemble_assemble hcb]
    rw [hc]
    exact crc32_cons_set_ne hk (by omega) hp hv hneP
  · -- a checksum byte was changed: the stored value differs from the CRC
    have hb3 : (c >>> 24) &&& 255 < 256 := by rw [and_255_eq_mod]; omega
    have hb2 : (c >>> 16) &&& 255 < 256 := by rw [and_255_eq_mod]; omega
    have hb1 : (c >>> 8) &&& 255 < 256 := by rw [and_255_eq_mod]; omega
    have hb0 : c &&& 255 < 256 := by rw [and_255_eq_mod]; omega
    have hasm : (((c >>> 24) &&& 255) <<< 24) ||| (((c >>> 16) &&& 255) <<< 16) |||
        (((c >>> 8) &&& 255) <<< 8) ||| (c &&& 255) = c := be32_disassemble_assemble hcb
    rw [henc]
    rw [map_range_payload_set_ne TRANS_PKT_DELIMITER p.length TRANS_PKT_DELIMITER tail v
      (by omega)]
    intro hEq
    rw [← henc, ← hc] at hEq
    rcases show i = 3 + p.length + 1 ∨ i = 3 + p.length + 2 ∨ i = 3 + p.length + 3 ∨
        i = 3 + p.length + 4 from by omega with hieq | hieq | hieq | hieq <;> subst hieq
    · rw [getD_set_self enc v (by omega), getD_set_ne _ v (by omega),
        getD_set_ne _ v (by omega), getD_set_ne _ v (by omega), henc,
        pkt_getD_tail, pkt_getD_tail, pkt_getD_tail, htail] at hEq
      simp only [List.getD_cons_zero, List.getD_cons_succ, Nat.shiftRight_zero,
        Nat.shiftLeft_zero] at hEq
      have hEq2 : (((c >>> 24) &&& 255) <<< 24) ||| (((c >>> 16) &&& 255) <<< 16) |||
          (((c >>> 8) &&& 255) <<< 8) ||| (c &&& 255) =
          (v <<< 24) ||| (((c >>> 16) &&& 255) <<< 16) |||
          (((c >>> 8) &&& 255) <<< 8) ||| (c &&& 255) := by rw [hasm]; exact hEq
      have hvEq := (assemble32_inj hb3 hb2 hb1 hb0 hv hb2 hb1 hb0 hEq2).1
      apply hne
      rw [henc, pkt_getD_tail, htail]
      exact hvEq.symm
    · rw [getD_set_self enc v (by omega), getD_set_ne _ v (by omega),
        getD_set_ne _ v (by omega), getD_set_ne _ v (by omega), henc,
        pkt_getD_tail, pkt_getD_tail, pkt_getD_tail, htail] at hEq
      simp only [List.getD_cons_zero, List.getD_cons_succ, Nat.shiftRight_zero,
        Nat.shiftLeft_zero] at hEq
      have hEq2 : (((c >>> 24) &&& 255) <<< 24) ||| (((c >>> 16) &&& 255) <<< 16) |||
          (((c >>> 8) &&& 255) <<< 8) ||| (c &&& 255) =
          (((c >>> 24) &&& 255) <<< 24) ||| (v <<< 16) |||
          (((c >>> 8) &&& 255) <<< 8) ||| (c &&& 255) := by rw [hasm]; exact hEq
      have hvEq := (assemble32_inj hb3 hb2 hb1 hb0 hb3 hv hb1 hb0 hEq2).2.1
      apply hne
      rw [henc, pkt_getD_tail, htail]
      exact hvEq.symm
    · rw [getD_set_self enc v (by omega), getD_set_ne _ v (by omega),
        getD_set_ne _ v (by omega), getD_set_ne _ v (by omega), henc,
        pkt_getD_tail, pkt_getD_tail, pkt_getD_tail, htail] at hEq
      simp only [List.getD_cons_zero, List.getD_cons_succ, Nat.shiftRight_zero,
        Nat.shiftLeft_zero] at hEq
      have hEq2 : (((c >>> 24) &&& 255) <<< 24) ||| (((c >>> 16) &&& 255) <<< 16) |||
          (((c >>> 8) &&& 255) <<< 8) ||| (c &&& 255) =
          (((c >>> 24) &&& 255) <<< 24) ||| (((c >>> 16) &&& 255) <<< 16) |||
          (v <<< 8) ||| (c &&& 255) := by rw [hasm]; exact hEq
      have hvEq := (assemble32_inj hb3 hb2 hb1 hb0 hb3 hb2 hv hb0 hEq2).2.2.1
      apply hne
      rw [henc, pkt_getD_tail, htail]
      exact hvEq.symm
    · rw [getD_set_self enc v (by omega), getD_set_ne _ v (by omega),
        getD_set_ne _ v (by omega), getD_set_ne _ v (by omega), henc,
        pkt_getD_tail, pkt_getD_tail, pkt_getD_tail, htail] at hEq
      simp only [List.getD_cons_zero, List.getD_cons_succ, Nat.shiftRight_zero,
        Nat.shiftLeft_zero] at hEq
      have hEq2 : (((c >>> 24) &&& 255) <<< 24) ||| (((c >>> 16) &&& 255) <<< 16) |||
          (((c >>> 8) &&& 255) <<< 8) ||| (c &&& 255) =
          (((c >>> 24) &&& 255) <<< 24) ||| (((c >>> 16) &&& 255) <<< 16) |||
          (((c >>> 8) &&& 255) <<< 8) ||| v := by rw [hasm]; exact hEq
      have hvEq := (assemble32_inj hb3 hb2 hb1 hb0 hb3 hb2 hb1 hv hEq2).2.2.2
      apply hne
      rw [henc, pkt_getD_tail, htail]
      exact hvEq.symm

set_option maxRecDepth 4096 in
set_option maxHeartbeats 1000000 in
/-- C2: for every payload of length 1 up to the maximum payload size, the
receive decoder applied to the packet produced by the transmit encoder
yields the original payload and length; and changing any single byte of the
encoded packet other than the delimiter bytes (positions 0, 2, len-6,
len-1) and the length byte (position 1) makes the decoder reject it with an
invalid-checksum or invalid-length NACK, never delivering a payload. -/
theorem trans_codec_round_trip_and_tamper_rejection (M : Nat) (p : List Nat)
    (hp : ∀ b ∈ p, b < 256) (h1 : 1 ≤ p.length) (h2 : p.length ≤ M)
    (hM : M ≤ 246) :
    (encode_trans_tx_msg M { init_trans_state with
        trans_tx_dec_msg := p, trans_tx_dec_avail := true }).trans_tx_enc_avail = true ∧
    (encode_trans_tx_msg M { init_trans_state with
        trans_tx_dec_msg := p, trans_tx_dec_avail := true }).trans_tx_enc_msg.length =
      p.length + 9 ∧
    (decode_trans_rx_msg M { init_trans_state with
        trans_rx_enc_msg := (encode_trans_tx_msg M { init_trans_state with
          trans_tx_dec_msg := p, trans_tx_dec_avail := true }).trans_tx_enc_msg,
        trans_rx_enc_avail := true }).trans_rx_dec_avail = true ∧
    (decode_trans_rx_msg M { init_trans_state with
        trans_rx_enc_msg := (encode_trans_tx_msg M { init_trans_state with
          trans_tx_dec_msg := p, trans_tx_dec_avail := true }).trans_tx_enc_msg,
        trans_rx_enc_avail := true }).trans_rx_dec_msg = p ∧
    (∀ i v : Nat, v < 256 →
      ((3 ≤ i ∧ i < 3 + p.length) ∨ (4 + p.length ≤ i ∧ i < 8 + p.length)) →
      v ≠ (encode_trans_tx_msg M { init_trans_state with
            trans_tx_dec_msg := p, trans_tx_dec_avail := true }).trans_tx_enc_msg.getD i 0 →
      (decode_trans_rx_msg M { init_trans_state with
          trans_rx_enc_msg := (encode_trans_tx_msg M { init_trans_state with
            trans_tx_dec_msg := p, trans_tx_dec_avail := true }).trans_tx_enc_msg.set i v,
          trans_rx_enc_avail := true }).trans_tx_ack_avail = true ∧
      ((decode_trans_rx_msg M { init_trans_state with
          trans_rx_enc_msg := (encode_trans_tx_msg M { init_trans_state with
            trans_tx_dec_msg := p, trans_tx_dec_avail := true }).trans_tx_enc_msg.set i v,
          trans_rx_enc_avail := true }).trans_tx_ack_status = CMD_ACK_STATUS_INVALID_CSUM ∨
       (decode_trans_rx_msg M { init_trans_state with
          trans_rx_enc_msg := (encode_trans_tx_msg M { init_trans_state with
            trans_tx_dec_msg := p, trans_tx_dec_avail := true }).trans_tx_enc_msg.set i v,
          trans_rx_enc_avail := true }).trans_tx_ack_status = CMD_ACK_STATUS_INVALID_LEN) ∧
      (decode_trans_rx_msg M { init_trans_state with
          trans_rx_enc_msg := (encode_trans_tx_msg M { init_trans_state with
            trans_tx_dec_msg := p, trans_tx_dec_avail := true }).trans_tx_enc_msg.set i v,
          trans_rx_enc_avail := true }).trans_rx_dec_avail = false) := by
  rw [encode_packet_eq M p (by omega) h2]
  refine ⟨rfl, ?_, ?_, ?_, ?_⟩
  · show ([TRANS_PKT_DELIMITER, p.length, TRANS_PKT_DELIMITER] ++ p ++
      [TRANS_PKT_DELIMITER,
       (crc32 (p.length :: p) >>> 24) &&& 0xFF,
       (crc32 (p.length :: p) >>> 16) &&& 0xFF,
       (crc32 (p.length :: p) >>> 8) &&& 0xFF,
       (crc32 (p.length :: p) >>> 0) &&& 0xFF,
       TRANS_PKT_DELIMITER]).length = p.length + 9
    simp [List.length_append]
  · show (decode_trans_rx_msg M _).trans_rx_dec_avail = true
    rw [decode_of_encoded M p hp h1 h2 hM]
  · show (decode_trans_rx_msg M _).trans_rx_dec_msg = p
    rw [decode_of_encoded M p hp h1 h2 hM]
  · intro i v hv hi hne
    refine ⟨?_, ?_, ?_⟩
    · show (decode_trans_rx_msg M _).trans_tx_ack_avail = true
      rw [decode_of_tampered M p i v hp h1 h2 hM hv hi hne]
      rfl
    · left
      show (decode_trans_rx_msg M _).trans_tx_ack_status = CMD_ACK_STATUS_INVALID_CSUM
      rw [decode_of_tampered M p i v hp h1 h2 hM hv hi hne]
      rfl
    · show (decode_trans_rx_msg M _).trans_rx_dec_avail = false
      rw [decode_of_tampered M p i v hp h1 h2 hM hv hi hne]
      rfl

set_option maxRecDepth 4096 in
/-- Witness for C2: the round-trip and tamper-rejection theorem applied to
the concrete 9-byte payload [1,2,3,4,5,6,7,8,9] with maximum size 9. -/
theorem trans_codec_round_trip_and_tamper_rejection_witness :
    (encode_trans_tx_msg 9 { init_trans_state with
        trans_tx_dec_msg := [1, 2, 3, 4, 5, 6, 7, 8, 9], trans_tx_dec_avail := true }).trans_tx_enc_avail = true ∧
    (encode_trans_tx_msg 9 { init_trans_state with
        trans_tx_dec_msg := [1, 2, 3, 4, 5, 6, 7, 8, 9], trans_tx_dec_avail := true }).trans_tx_enc_msg.length =
      ([1, 2, 3, 4, 5, 6, 7, 8, 9] : List Nat).length + 9 ∧
    (decode_trans_rx_msg 9 { init_trans_state with
        trans_rx_enc_msg := (encode_trans_tx_msg 9 { init_trans_state with
          trans_tx_dec_msg := [1, 2, 3, 4, 5, 6, 7, 8, 9], trans_tx_dec_avail := true }).trans_tx_enc_msg,
        trans_rx_enc_avail := true }).trans_rx_dec_avail = true ∧
    (decode_trans_rx_msg 9 { init_trans_state with
        trans_rx_enc_msg := (encode_trans_tx_msg 9 { init_trans_state with
          trans_tx_dec_msg := [1, 2, 3, 4, 5, 6, 7, 8, 9], trans_tx_dec_avail := true }).trans_tx_enc_msg,
        trans_rx_enc_avail := true }).trans_rx_dec_msg = [1, 2, 3, 4, 5, 6, 7, 8, 9] ∧
    (∀ i v : Nat, v < 256 →
      ((3 ≤ i ∧ i < 3 + ([1, 2, 3, 4, 5, 6, 7, 8, 9] : List Nat).length) ∨ (4 + ([1, 2, 3, 4, 5, 6, 7, 8, 9] : List Nat).length ≤ i ∧ i < 8 + ([1, 2, 3, 4, 5, 6, 7, 8, 9] : List Nat).length)) →
      v ≠ (encode_trans_tx_msg 9 { init_trans_state with
            trans_tx_dec_msg := [1, 2, 3, 4, 5, 6, 7, 8, 9], trans_tx_dec_avail := true }).trans_tx_enc_msg.getD i 0 →
      (decode_trans_rx_msg 9 { init_trans_state with
          trans_rx_enc_msg := (encode_trans_tx_msg 9 { init_trans_state with
            trans_tx_dec_msg := [1, 2, 3, 4, 5, 6, 7, 8, 9], trans_tx_dec_avail := true }).trans_tx_enc_msg.set i v,
          trans_rx_enc_avail := true }).trans_tx_ack_avail = true ∧
      ((decode_trans_rx_msg 9 { init_trans_state with
          trans_rx_enc_msg := (encode_trans_tx_msg 9 { init_trans_state with
            trans_tx_dec_msg := [1, 2, 3, 4, 5, 6, 7, 8, 9], trans_tx_dec_avail := true }).trans_tx_enc_msg.set i v,
          trans_rx_enc_avail := true }).trans_tx_ack_status = CMD_ACK_STATUS_INVALID_CSUM ∨
       (decode_trans_rx_msg 9 { init_trans_state with
          trans_rx_enc_msg := (encode_trans_tx_msg 9 { init_trans_state with
            trans_tx_dec_msg := [1, 2, 3, 4, 5, 6, 7, 8, 9], trans_tx_dec_avail := true }).trans_tx_enc_msg.set i v,
          trans_rx_enc_avail := true }).trans_tx_ack_status = CMD_ACK_STATUS_INVALID_LEN) ∧
      (decode_trans_rx_msg 9 { init_trans_state with
          trans_rx_enc_msg := (encode_trans_tx_msg 9 { init_trans_state with
            trans_tx_dec_msg := [1, 2, 3, 4, 5, 6, 7, 8, 9], trans_tx_dec_avail := true }).trans_tx_enc_msg.set i v,
          trans_rx_enc_avail := true }).trans_rx_dec_avail = false) :=
  trans_codec_round_trip_and_tamper_rejection 9 [1, 2, 3, 4, 5, 6, 7, 8, 9]
    (by decide) (by decide) (by decide) (by decide)

/-! ## Status-control-register bit update (src/transceiver.c, set_trans_scw_bit,
lines 644-662)

The register-channel transaction itself (UART send, retry, checksum-verified
response) is hardware interaction; it is abstracted by two parameters: the
outcome of the initial `get_trans_scw` read (`none` when the read returned
0, `some scw` when it succeeded) and the success flag of the final
`set_trans_scw` write.  The function returns the C return value together
with the value written to the register (`none` when no write happens). -/

/-- `set_trans_scw_bit` from the source: read the 16-bit status control
register; on read failure return 0 without writing; otherwise clear the bit
(`scw &= ~_BV(bit_index)`, 16-bit one's complement) when `value` is 0, set
it (`scw |= _BV(bit_index)`) when `value` is 1, and write the result back. -/
def set_trans_scw_bit (readResult : Option Nat) (writeOk : Bool)
    (bit_index value : Nat) : Nat × Option Nat :=
  match readResult with
  | none => (0, none)
  | some scw =>
    let scw2 :=
      if value = 0 then scw &&& (65535 ^^^ (1 <<< bit_index))
      else if value = 1 then scw ||| (1 <<< bit_index)
      else scw
    ((if writeOk then 1 else 0), some scw2)

/-- C9: `set_trans_scw_bit` is read-modify-write with a frame condition:
for a bit index of the 16-bit register and value 0 or 1, the value written
back equals the value read at every bit except `bit_index`, which becomes
`value`; and when the initial read fails it returns 0 and writes nothing. -/
theorem set_trans_scw_bit_read_modify_write_frame (bit_index value scw : Nat)
    (writeOk : Bool) (hbit : bit_index < 16) (hval : value = 0 ∨ value = 1)
    (hscw : scw < 2 ^ 16) :
    (∃ w : Nat,
      (set_trans_scw_bit (some scw) writeOk bit_index value).2 = some w ∧
      w < 2 ^ 16 ∧
      w.testBit bit_index = decide (value = 1) ∧
      (∀ j : Nat, j ≠ bit_index → w.testBit j = scw.testBit j)) ∧
    set_trans_scw_bit none writeOk bit_index value = (0, none) := by
  have hshift : (1 : Nat) <<< bit_index = 2 ^ bit_index := by
    rw [Nat.shiftLeft_eq, Nat.one_mul]
  have hpow : 2 ^ bit_index < 2 ^ 16 := Nat.pow_lt_pow_right (by norm_num) hbit
  have h65535 : (65535 : Nat) = 2 ^ 16 - 1 := by norm_num
  refine ⟨?_, rfl⟩
  rcases hval with hv | hv
  · subst hv
    refine ⟨scw &&& (65535 ^^^ (1 <<< bit_index)), rfl, ?_, ?_, ?_⟩
    · exact Nat.and_lt_two_pow scw (Nat.xor_lt_two_pow (by norm_num) (by
        rw [hshift]; exact hpow))
    · rw [Nat.testBit_and, Nat.testBit_xor, hshift, h65535,
        Nat.testBit_two_pow_sub_one, Nat.testBit_two_pow_self]
      simp [hbit]
    · intro j hj
      rw [Nat.testBit_and, Nat.testBit_xor, hshift, h65535,
        Nat.testBit_two_pow_sub_one, Nat.testBit_two_pow_of_ne hj.symm]
      by_cases hj16 : j < 16
      · simp [hj16]
      · have hz : scw.testBit j = false := Nat.testBit_lt_two_pow (by
          calc scw < 2 ^ 16 := hscw
          _ ≤ 2 ^ j := Nat.pow_le_pow_right (by norm_num) (by omega))
        simp [hz]
  · subst hv
    refine ⟨scw ||| (1 <<< bit_index), rfl, ?_, ?_, ?_⟩
    · exact Nat.or_lt_two_pow hscw (by rw [hshift]; exact hpow)
    · rw [Nat.testBit_or, hshift, Nat.testBit_two_pow_self]
      simp
    · intro j hj
      rw [Nat.testBit_or, hshift, Nat.testBit_two_pow_of_ne hj.symm]
      simp

/-- Witness for C9: setting bit 5 (pipe mode) to 1 in register value
0x0303. -/
theorem set_trans_scw_bit_read_modify_write_frame_witness :
    (∃ w : Nat,
      (set_trans_scw_bit (some 0x0303) true 5 1).2 = some w ∧
      w < 2 ^ 16 ∧
      w.testBit 5 = decide ((1 : Nat) = 1) ∧
      (∀ j : Nat, j ≠ 5 → w.testBit j = (0x0303 : Nat).testBit j)) ∧
    set_trans_scw_bit none true 5 1 = (0, none) :=
  set_trans_scw_bit_read_modify_write_frame 5 1 0x0303 true (by decide)
    (by decide) (by decide)

/-! ## Command execution engine (src/command_utilities.c)

The engine globals are gathered in one state record.  A command descriptor
is represented by its address truncated to 16 bits, exactly as the source
stores it ("We know that the microcontroller uses 16 bit addresses, so
store a function pointer in the first 2 bytes of the queue entry").  The
address of the sentinel `nop_cmd` is a parameter `nop`.  The queue
primitives `enqueue` / `dequeue` / `queue_empty` come from the lib-common
library, which is not among the sources provided; modelled from the spec:
a FIFO of fixed 8-byte entries, `enqueue` appending at the back and
`dequeue` removing at the front (spec sections 4.4 and 5; the capacity
bound and its silent-drop overflow policy are not exercised by any claim
and are omitted).  Running the dequeued command's action
(`(current_cmd->fn)()`) is outside the engine state and is not modelled. -/

structure CmdState where
  cmd_queue : List (List Nat)
  cmd_args_queue : List (List Nat)
  current_cmd : Nat
  current_cmd_arg1 : Nat
  current_cmd_arg2 : Nat
  prev_cmd_succeeded : Bool
  can_countdown : Nat
deriving DecidableEq

/-- Initial engine state (src/command_utilities.c lines 4-20): empty
queues, `current_cmd = &nop_cmd`, zero arguments and countdown. -/
def init_cmd_state (nop : Nat) : CmdState :=
  ⟨[], [], nop, 0, 0, false, 0⟩

/-- The 8-byte queue entry for a command pointer built by `enqueue_cmd`
(lines 148-154): the address cast to uint16, most significant byte first,
remaining six bytes zero. -/
def cmd_ptr_bytes (cmd : Nat) : List Nat :=
  [((cmd % 2 ^ 16) >>> 8) &&& 0xFF, (cmd % 2 ^ 16) &&& 0xFF, 0, 0, 0, 0, 0, 0]

/-- The 8-byte queue entry for the two 32-bit arguments built by
`enqueue_cmd` (lines 156-164): both big-endian. -/
def cmd_args_bytes (arg1 arg2 : Nat) : List Nat :=
  [(arg1 >>> 24) &&& 0xFF, (arg1 >>> 16) &&& 0xFF, (arg1 >>> 8) &&& 0xFF, arg1 &&& 0xFF,
   (arg2 >>> 24) &&& 0xFF, (arg2 >>> 16) &&& 0xFF, (arg2 >>> 8) &&& 0xFF, arg2 &&& 0xFF]

/-- `enqueue_cmd` (src/command_utilities.c lines 145-170): serialize the
command pointer and the two arguments into 8-byte records and append them
to the two paired queues. -/
def enqueue_cmd (cmd arg1 arg2 : Nat) (s : CmdState) : CmdState :=
  { s with
    cmd_queue := s.cmd_queue ++ [cmd_ptr_bytes cmd],
    cmd_args_queue := s.cmd_args_queue ++ [cmd_args_bytes arg1 arg2] }

/-- `dequeue_cmd` (src/command_utilities.c lines 176-216): return without
change when either queue is empty; otherwise pop the front entry of both
queues, parse the command pointer (big-endian 16-bit) and the two arguments
(big-endian 32-bit), and store them in the Current Command State. -/
def dequeue_cmd (s : CmdState) : CmdState :=
  match s.cmd_queue, s.cmd_args_queue with
  | [], _ => s
  | _ :: _, [] => s
  | cmd_data :: cmdRest, args_data :: argsRest =>
    { s with
      cmd_queue := cmdRest,
      cmd_args_queue := argsRest,
      current_cmd := (cmd_data.getD 0 0 <<< 8) ||| cmd_data.getD 1 0,
      current_cmd_arg1 :=
        (args_data.getD 0 0 <<< 24) ||| (args_data.getD 1 0 <<< 16) |||
        (args_data.getD 2 0 <<< 8) ||| args_data.getD 3 0,
      current_cmd_arg2 :=
        (args_data.getD 4 0 <<< 24) ||| (args_data.getD 5 0 <<< 16) |||
        (args_data.getD 6 0 <<< 8) ||| args_data.getD 7 0 }

/-- `execute_next_cmd` (src/command_utilities.c lines 219-227): dequeue and
start the next command only when the queue is non-empty and the current
command is the sentinel.  The started command's action is invoked after the
dequeue; its effects are outside this state. -/
def execute_next_cmd (nop : Nat) (s : CmdState) : CmdState :=
  if s.cmd_queue ≠ [] ∧ s.current_cmd = nop then dequeue_cmd s else s

/-- `finish_current_cmd` (src/command_utilities.c lines 230-239): reset the
Current Command State to the sentinel, clear both arguments and the
countdown, record the outcome flag. -/
def finish_current_cmd (succeeded : Bool) (nop : Nat) (s : CmdState) : CmdState :=
  { s with
    current_cmd := nop,
    current_cmd_arg1 := 0,
    current_cmd_arg2 := 0,
    prev_cmd_succeeded := succeeded,
    can_countdown := 0 }

/-- `can_timer_cb` (src/command_utilities.c lines 315-325): countdown above
155 forces failure completion immediately; countdown 1..155 is decremented,
forcing failure completion when it reaches 0; countdown 0 does nothing. -/
def can_timer_cb (nop : Nat) (s : CmdState) : CmdState :=
  if s.can_countdown > 155 then finish_current_cmd false nop s
  else if s.can_countdown > 0 then
    let s2 := { s with can_countdown := s.can_countdown - 1 }
    if s2.can_countdown = 0 then finish_current_cmd false nop s2 else s2
  else s

/-- Fold a list of (cmd, arg1, arg2) requests through `enqueue_cmd`. -/
def run_enqueues (enqs : List (Nat × Nat × Nat)) (s : CmdState) : CmdState :=
  enqs.foldl (fun t e => enqueue_cmd e.1 e.2.1 e.2.2 t) s

lemma execute_next_cmd_stuck (nop : Nat) (t : CmdState)
    (h : t.current_cmd ≠ nop ∨ t.cmd_queue = []) :
    execute_next_cmd nop t = t := by
  rw [execute_next_cmd, if_neg]
  rintro ⟨hq, hc⟩
  rcases h with h | h
  · exact h hc
  · exact hq h

lemma execute_next_cmd_iterate_stuck (nop : Nat) (m : Nat) (t : CmdState)
    (h : t.current_cmd ≠ nop) : (execute_next_cmd nop)^[m] t = t := by
  induction m with
  | zero => rfl
  | succ m ih =>
      rw [Function.iterate_succ_apply, execute_next_cmd_stuck nop t (Or.inl h), ih]

/-- C1: single-in-flight.  `execute_next_cmd` dequeues and starts a command
only when the queue is non-empty and the current command is the sentinel
`nop_cmd`; in any run consisting of enqueues followed by repeated
`execute_next_cmd`, once the Current Command State holds a non-sentinel
command it is never replaced by a second one (only `finish_current_cmd`
clears it). -/
theorem execute_next_cmd_single_in_flight (nop : Nat)
    (enqs : List (Nat × Nat × Nat)) (s0 : CmdState) (j k : Nat) (hjk : j ≤ k) :
    (∀ t : CmdState, t.current_cmd ≠ nop ∨ t.cmd_queue = [] →
      execute_next_cmd nop t = t) ∧
    (∀ t : CmdState, t.cmd_queue ≠ [] → t.cmd_args_queue ≠ [] →
      t.current_cmd = nop →
      (execute_next_cmd nop t).current_cmd =
        ((t.cmd_queue.headI.getD 0 0) <<< 8) ||| t.cmd_queue.headI.getD 1 0 ∧
      (execute_next_cmd nop t).cmd_queue = t.cmd_queue.tail ∧
      (execute_next_cmd nop t).cmd_args_queue = t.cmd_args_queue.tail) ∧
    (((execute_next_cmd nop)^[j] (run_enqueues enqs s0)).current_cmd ≠ nop →
      ((execute_next_cmd nop)^[k] (run_enqueues enqs s0)).current_cmd =
        ((execute_next_cmd nop)^[j] (run_enqueues enqs s0)).current_cmd) := by
  refine ⟨execute_next_cmd_stuck nop, ?_, ?_⟩
  · intro t hq ha hc
    obtain ⟨q, aq, cur, x1, x2, pv, cd⟩ := t
    rw [execute_next_cmd, if_pos ⟨hq, hc⟩]
    rcases q with _ | ⟨d, rest⟩
    · exact absurd rfl hq
    rcases aq with _ | ⟨a, arest⟩
    · exact absurd rfl ha
    exact ⟨rfl, rfl, rfl⟩
  · intro hne
    rw [show k = (k - j) + j from by omega, Function.iterate_add_apply,
      execute_next_cmd_iterate_stuck nop (k - j) _ hne]

/-- Witness for C1: one enqueued command, one and then two execute steps. -/
theorem execute_next_cmd_single_in_flight_witness :
    (∀ t : CmdState, t.current_cmd ≠ 0 ∨ t.cmd_queue = [] →
      execute_next_cmd 0 t = t) ∧
    (∀ t : CmdState, t.cmd_queue ≠ [] → t.cmd_args_queue ≠ [] →
      t.current_cmd = 0 →
      (execute_next_cmd 0 t).current_cmd =
        ((t.cmd_queue.headI.getD 0 0) <<< 8) ||| t.cmd_queue.headI.getD 1 0 ∧
      (execute_next_cmd 0 t).cmd_queue = t.cmd_queue.tail ∧
      (execute_next_cmd 0 t).cmd_args_queue = t.cmd_args_queue.tail) ∧
    (((execute_next_cmd 0)^[1] (run_enqueues [(5, 1, 2)] (init_cmd_state 0))).current_cmd ≠ 0 →
      ((execute_next_cmd 0)^[2] (run_enqueues [(5, 1, 2)] (init_cmd_state 0))).current_cmd =
        ((execute_next_cmd 0)^[1] (run_enqueues [(5, 1, 2)] (init_cmd_state 0))).current_cmd) :=
  execute_next_cmd_single_in_flight 0 [(5, 1, 2)] (init_cmd_state 0) 1 2 (by decide)

/-- C5 (code evaluation): `enqueue_cmd` in src/command_utilities.c appends
unconditionally at the back of the pending queue.  Enqueuing the
auto-injected physical-sector-erase command M into queue [A, B, C] yields
[A, B, C, M] and not the front-inserted [A, M, B, C] that the specification
(and the harness test auto_erase_mem_sector_test in
src/harness_tests/commands/main1.c) require. -/
theorem enqueue_cmd_appends_auto_erase_at_back :
    (enqueue_cmd 0x0E 0xF0000 0
      { init_cmd_state 0 with
        cmd_queue := [cmd_ptr_bytes 0x0A, cmd_ptr_bytes 0x0B, cmd_ptr_bytes 0x0C],
        cmd_args_queue := [cmd_args_bytes 0 0, cmd_args_bytes 0 0,
          cmd_args_bytes 0 0] }).cmd_queue =
      [cmd_ptr_bytes 0x0A, cmd_ptr_bytes 0x0B, cmd_ptr_bytes 0x0C,
       cmd_ptr_bytes 0x0E] ∧
    (enqueue_cmd 0x0E 0xF0000 0
      { init_cmd_state 0 with
        cmd_queue := [cmd_ptr_bytes 0x0A, cmd_ptr_bytes 0x0B, cmd_ptr_bytes 0x0C],
        cmd_args_queue := [cmd_args_bytes 0 0, cmd_args_bytes 0 0,
          cmd_args_bytes 0 0] }).cmd_queue ≠
      [cmd_ptr_bytes 0x0A, cmd_ptr_bytes 0x0E, cmd_ptr_bytes 0x0B,
       cmd_ptr_bytes 0x0C] := by
  constructor
  · rfl
  · decide

/-- C10: case analysis of the watchdog tick `can_timer_cb`.  A countdown
above 155 finishes the current command as failed at once (current command
reset to the sentinel, countdown cleared to 0, not decremented); a
countdown in 2..155 is only decremented by one; a countdown of exactly 1
is decremented to 0, which forces failure completion; a countdown of 0
changes nothing. -/
theorem can_timer_cb_countdown_cases (nop : Nat) (s : CmdState) :
    (155 < s.can_countdown →
      can_timer_cb nop s =
        { s with current_cmd := nop, current_cmd_arg1 := 0,
                 current_cmd_arg2 := 0, prev_cmd_succeeded := false,
                 can_countdown := 0 }) ∧
    (2 ≤ s.can_countdown → s.can_countdown ≤ 155 →
      can_timer_cb nop s = { s with can_countdown := s.can_countdown - 1 }) ∧
    (s.can_countdown = 1 →
      can_timer_cb nop s =
        { s with current_cmd := nop, current_cmd_arg1 := 0,
                 current_cmd_arg2 := 0, prev_cmd_succeeded := false,
                 can_countdown := 0 }) ∧
    (s.can_countdown = 0 → can_timer_cb nop s = s) := by
  obtain ⟨q, aq, cur, x1, x2, pv, cd⟩ := s
  refine ⟨?_, ?_, ?_, ?_⟩
  · intro h
    simp only [can_timer_cb] at *
    rw [if_pos (by omega : cd > 155)]
    rfl
  · intro h1 h2
    simp only [can_timer_cb] at *
    rw [if_neg (by omega : ¬(cd > 155)), if_pos (by omega : cd > 0),
      if_neg (by omega : ¬(cd - 1 = 0))]
  · intro h
    simp only [can_timer_cb] at *
    rw [if_neg (by omega : ¬(cd > 155)), if_pos (by omega : cd > 0),
      if_pos (by omega : cd - 1 = 0)]
    rfl
  · intro h
    simp only [can_timer_cb] at *
    rw [if_neg (by omega : ¬(cd > 155)), if_neg (by omega : ¬(cd > 0))]

/-- Witness for C10: the four countdown cases at concrete states with
countdown 200, 5, 1 and 0. -/
theorem can_timer_cb_countdown_cases_witness :
    can_timer_cb 0 ⟨[], [], 7, 1, 2, true, 200⟩ =
      ⟨[], [], 0, 0, 0, false, 0⟩ ∧
    can_timer_cb 0 ⟨[], [], 7, 1, 2, true, 5⟩ = ⟨[], [], 7, 1, 2, true, 4⟩ ∧
    can_timer_cb 0 ⟨[], [], 7, 1, 2, true, 1⟩ = ⟨[], [], 0, 0, 0, false, 0⟩ ∧
    can_timer_cb 0 ⟨[], [], 7, 1, 2, true, 0⟩ = ⟨[], [], 7, 1, 2, true, 0⟩ :=
  ⟨(can_timer_cb_countdown_cases 0 ⟨[], [], 7, 1, 2, true, 200⟩).1 (by decide),
   (can_timer_cb_countdown_cases 0 ⟨[], [], 7, 1, 2, true, 5⟩).2.1 (by decide)
     (by decide),
   (can_timer_cb_countdown_cases 0 ⟨[], [], 7, 1, 2, true, 1⟩).2.2.1 (by decide),
   (can_timer_cb_countdown_cases 0 ⟨[], [], 7, 1, 2, true, 0⟩).2.2.2 (by decide)⟩

/-- C6: watchdog timeout.  If a command is running with countdown `v`
(1 ≤ v ≤ 155) and no completion event arrives, then each of the first v-1
ticks only decrements the countdown, and the v-th tick invokes
`finish_current_cmd(false)`: the current command is reset to the sentinel,
both arguments and the countdown are cleared to 0, so the engine returns to
IDLE and is never blocked forever by a stalled command. -/
theorem can_timer_cb_watchdog_timeout (nop : Nat) (s : CmdState) (v : Nat)
    (hv1 : 1 ≤ v) (hv2 : v ≤ 155) (hc : s.can_countdown = v) :
    (∀ k : Nat, k < v →
      (can_timer_cb nop)^[k] s = { s with can_countdown := v - k }) ∧
    (can_timer_cb nop)^[v] s =
      { s with current_cmd := nop, current_cmd_arg1 := 0,
               current_cmd_arg2 := 0, prev_cmd_succeeded := false,
               can_countdown := 0 } := by
  obtain ⟨q, aq, cur, x1, x2, pv, cd⟩ := s
  simp only at hc
  subst hc
  have hstep : ∀ k : Nat, k < cd →
      (can_timer_cb nop)^[k] ⟨q, aq, cur, x1, x2, pv, cd⟩ =
        ⟨q, aq, cur, x1, x2, pv, cd - k⟩ := by
    intro k
    induction k with
    | zero => intro _; rfl
    | succ k ih =>
        intro hk
        rw [Function.iterate_succ_apply', ih (by omega)]
        simp only [can_timer_cb]
        rw [if_neg (by omega : ¬(cd - k > 155)),
          if_pos (by omega : cd - k > 0),
          if_neg (by omega : ¬(cd - k - 1 = 0))]
        have heq : cd - k - 1 = cd - (k + 1) := by omega
        rw [heq]
  refine ⟨hstep, ?_⟩
  obtain ⟨m, rfl⟩ : ∃ m, cd = m + 1 := ⟨cd - 1, by omega⟩
  rw [Function.iterate_succ_apply', hstep m (by omega)]
  simp only [can_timer_cb]
  rw [if_neg (by omega : ¬(m + 1 - m > 155)),
    if_pos (by omega : m + 1 - m > 0),
    if_pos (by omega : m + 1 - m - 1 = 0)]
  rfl

/-- Witness for C6: a command with the 30-tick countdown of the spec
example finishes exactly after 30 watchdog ticks. -/
theorem can_timer_cb_watchdog_timeout_witness :
    (∀ k : Nat, k < 30 →
      (can_timer_cb 0)^[k] ⟨[], [], 7, 1, 2, true, 30⟩ =
        { (⟨[], [], 7, 1, 2, true, 30⟩ : CmdState) with can_countdown := 30 - k }) ∧
    (can_timer_cb 0)^[30] ⟨[], [], 7, 1, 2, true, 30⟩ =
      { (⟨[], [], 7, 1, 2, true, 30⟩ : CmdState) with
        current_cmd := 0, current_cmd_arg1 := 0, current_cmd_arg2 := 0,
        prev_cmd_succeeded := false, can_countdown := 0 } :=
  can_timer_cb_watchdog_timeout 0 ⟨[], [], 7, 1, 2, true, 30⟩ 30 (by decide)
    (by decide) (by decide)

lemma cmd_ptr_bytes_roundtrip {c : Nat} (hc : c < 2 ^ 16) :
    ((cmd_ptr_bytes c).getD 0 0 <<< 8) ||| (cmd_ptr_bytes c).getD 1 0 = c := by
  rw [cmd_ptr_bytes]
  simp only [List.getD_cons_zero, List.getD_cons_succ]
  rw [Nat.mod_eq_of_lt hc, and_255_eq_mod, and_255_eq_mod,
    Nat.shiftRight_eq_div_pow, Nat.shiftLeft_eq]
  have hor := Nat.mul_add_lt_is_or (show c % 256 < 2 ^ 8 from by omega)
    (c / 2 ^ 8 % 256)
  rw [Nat.mul_comm, ← hor]
  omega

lemma cmd_args_bytes_roundtrip1 {a1 : Nat} (a2 : Nat) (h : a1 < 2 ^ 32) :
    ((cmd_args_bytes a1 a2).getD 0 0 <<< 24) |||
    ((cmd_args_bytes a1 a2).getD 1 0 <<< 16) |||
    ((cmd_args_bytes a1 a2).getD 2 0 <<< 8) |||
    (cmd_args_bytes a1 a2).getD 3 0 = a1 := by
  rw [cmd_args_bytes]
  simp only [List.getD_cons_zero, List.getD_cons_succ]
  exact be32_disassemble_assemble h

lemma cmd_args_bytes_roundtrip2 (a1 : Nat) {a2 : Nat} (h : a2 < 2 ^ 32) :
    ((cmd_args_bytes a1 a2).getD 4 0 <<< 24) |||
    ((cmd_args_bytes a1 a2).getD 5 0 <<< 16) |||
    ((cmd_args_bytes a1 a2).getD 6 0 <<< 8) |||
    (cmd_args_bytes a1 a2).getD 7 0 = a2 := by
  rw [cmd_args_bytes]
  simp only [List.getD_cons_zero, List.getD_cons_succ]
  exact be32_disassemble_assemble h

lemma run_enqueues_queues (trips : List (Nat × Nat × Nat)) (s : CmdState) :
    run_enqueues trips s =
      { s with
        cmd_queue := s.cmd_queue ++ trips.map (fun e => cmd_ptr_bytes e.1),
        cmd_args_queue := s.cmd_args_queue ++
          trips.map (fun e => cmd_args_bytes e.2.1 e.2.2) } := by
  induction trips generalizing s with
  | nil => simp [run_enqueues]
  | cons e rest ih =>
      rw [run_enqueues, List.foldl_cons]
      rw [show List.foldl (fun t e => enqueue_cmd e.1 e.2.1 e.2.2 t)
        (enqueue_cmd e.1 e.2.1 e.2.2 s) rest =
        run_enqueues rest (enqueue_cmd e.1 e.2.1 e.2.2 s) from rfl, ih]
      simp [enqueue_cmd]

lemma dequeue_cmd_iterate_fifo (trips : List (Nat × Nat × Nat)) (j : Nat)
    (hj : j < trips.length) (s : CmdState)
    (hq : s.cmd_queue = trips.map (fun e => cmd_ptr_bytes e.1))
    (ha : s.cmd_args_queue = trips.map (fun e => cmd_args_bytes e.2.1 e.2.2)) :
    dequeue_cmd^[j + 1] s =
      { s with
        cmd_queue := (trips.drop (j + 1)).map (fun e => cmd_ptr_bytes e.1),
        cmd_args_queue := (trips.drop (j + 1)).map
          (fun e => cmd_args_bytes e.2.1 e.2.2),
        current_cmd :=
          ((cmd_ptr_bytes (trips.getD j (0, 0, 0)).1).getD 0 0 <<< 8) |||
          (cmd_ptr_bytes (trips.getD j (0, 0, 0)).1).getD 1 0,
        current_cmd_arg1 :=
          ((cmd_args_bytes (trips.getD j (0, 0, 0)).2.1
              (trips.getD j (0, 0, 0)).2.2).getD 0 0 <<< 24) |||
          ((cmd_args_bytes (trips.getD j (0, 0, 0)).2.1
              (trips.getD j (0, 0, 0)).2.2).getD 1 0 <<< 16) |||
          ((cmd_args_bytes (trips.getD j (0, 0, 0)).2.1
              (trips.getD j (0, 0, 0)).2.2).getD 2 0 <<< 8) |||
          (cmd_args_bytes (trips.getD j (0, 0, 0)).2.1
              (trips.getD j (0, 0, 0)).2.2).getD 3 0,
        current_cmd_arg2 :=
          ((cmd_args_bytes (trips.getD j (0, 0, 0)).2.1
              (trips.getD j (0, 0, 0)).2.2).getD 4 0 <<< 24) |||
          ((cmd_args_bytes (trips.getD j (0, 0, 0)).2.1
              (trips.getD j (0, 0, 0)).2.2).getD 5 0 <<< 16) |||
          ((cmd_args_bytes (trips.getD j (0, 0, 0)).2.1
              (trips.getD j (0, 0, 0)).2.2).getD 6 0 <<< 8) |||
          (cmd_args_bytes (trips.getD j (0, 0, 0)).2.1
              (trips.getD j (0, 0, 0)).2.2).getD 7 0 } := by
  induction j generalizing trips s with
  | zero =>
      rcases trips with _ | ⟨t, rest⟩
      · simp at hj
      obtain ⟨q, aq, cur, x1, x2, pv, cd⟩ := s
      simp only at hq ha
      subst hq ha
      rfl
  | succ j ih =>
      rcases trips with _ | ⟨t, rest⟩
      · simp at hj
      obtain ⟨q, aq, cur, x1, x2, pv, cd⟩ := s
      simp only at hq ha
      subst hq ha
      rw [Function.iterate_succ_apply]
      rw [show dequeue_cmd
        ⟨(t :: rest).map (fun e => cmd_ptr_bytes e.1),
         (t :: rest).map (fun e => cmd_args_bytes e.2.1 e.2.2),
         cur, x1, x2, pv, cd⟩ =
        ⟨rest.map (fun e => cmd_ptr_bytes e.1),
         rest.map (fun e => cmd_args_bytes e.2.1 e.2.2),
         ((cmd_ptr_bytes t.1).getD 0 0 <<< 8) ||| (cmd_ptr_bytes t.1).getD 1 0,
         ((cmd_args_bytes t.2.1 t.2.2).getD 0 0 <<< 24) |||
         ((cmd_args_bytes t.2.1 t.2.2).getD 1 0 <<< 16) |||
         ((cmd_args_bytes t.2.1 t.2.2).getD 2 0 <<< 8) |||
         (cmd_args_bytes t.2.1 t.2.2).getD 3 0,
         ((cmd_args_bytes t.2.1 t.2.2).getD 4 0 <<< 24) |||
         ((cmd_args_bytes t.2.1 t.2.2).getD 5 0 <<< 16) |||
         ((cmd_args_bytes t.2.1 t.2.2).getD 6 0 <<< 8) |||
         (cmd_args_bytes t.2.1 t.2.2).getD 7 0, pv, cd⟩ from rfl]
      rw [ih rest (by simpa using hj) _ rfl rfl]
      simp [List.getD_cons_succ]

/-- C7: argument marshaling round trip with FIFO order.  Enqueuing a list
of (descriptor, arg1, arg2) requests serializes each into the paired
8-byte records, and the (j+1)-th dequeue parses back exactly the j-th
enqueued descriptor and argument values, leaving the remaining entries in
FIFO order in both queues. -/
theorem enqueue_dequeue_marshaling_round_trip (nop : Nat)
    (trips : List (Nat × Nat × Nat)) (j : Nat) (hj : j < trips.length)
    (hb : ∀ e ∈ trips, e.1 < 2 ^ 16 ∧ e.2.1 < 2 ^ 32 ∧ e.2.2 < 2 ^ 32) :
    (run_enqueues trips (init_cmd_state nop)).cmd_queue =
      trips.map (fun e => cmd_ptr_bytes e.1) ∧
    (run_enqueues trips (init_cmd_state nop)).cmd_args_queue =
      trips.map (fun e => cmd_args_bytes e.2.1 e.2.2) ∧
    (dequeue_cmd^[j + 1] (run_enqueues trips (init_cmd_state nop))).current_cmd =
      (trips.getD j (0, 0, 0)).1 ∧
    (dequeue_cmd^[j + 1] (run_enqueues trips (init_cmd_state nop))).current_cmd_arg1 =
      (trips.getD j (0, 0, 0)).2.1 ∧
    (dequeue_cmd^[j + 1] (run_enqueues trips (init_cmd_state nop))).current_cmd_arg2 =
      (trips.getD j (0, 0, 0)).2.2 ∧
    (dequeue_cmd^[j + 1] (run_enqueues trips (init_cmd_state nop))).cmd_queue =
      (trips.drop (j + 1)).map (fun e => cmd_ptr_bytes e.1) ∧
    (dequeue_cmd^[j + 1] (run_enqueues trips (init_cmd_state nop))).cmd_args_queue =
      (trips.drop (j + 1)).map (fun e => cmd_args_bytes e.2.1 e.2.2) := by
  have hgetj : trips.getD j (0, 0, 0) = trips[j] := by
    rw [List.getD_eq_getElem?_getD, List.getElem?_eq_getElem hj]
    rfl
  have hmem : trips.getD j (0, 0, 0) ∈ trips := by
    rw [hgetj]
    exact List.getElem_mem hj
  obtain ⟨hb1, hb2, hb3⟩ := hb _ hmem
  have hq : (run_enqueues trips (init_cmd_state nop)).cmd_queue =
      trips.map (fun e => cmd_ptr_bytes e.1) := by
    rw [run_enqueues_queues]
    simp [init_cmd_state]
  have ha : (run_enqueues trips (init_cmd_state nop)).cmd_args_queue =
      trips.map (fun e => cmd_args_bytes e.2.1 e.2.2) := by
    rw [run_enqueues_queues]
    simp [init_cmd_state]
  have hd := dequeue_cmd_iterate_fifo trips j hj _ hq ha
  refine ⟨hq, ha, ?_, ?_, ?_, ?_, ?_⟩
  · rw [hd]
    exact cmd_ptr_bytes_roundtrip hb1
  · rw [hd]
    exact cmd_args_bytes_roundtrip1 _ hb2
  · rw [hd]
    exact cmd_args_bytes_roundtrip2 _ hb3
  · rw [hd]
  · rw [hd]

/-- Witness for C7: two enqueued requests, checking the second dequeue. -/
theorem enqueue_dequeue_marshaling_round_trip_witness :
    (run_enqueues [(0x0A01, 5, 6), (0x0B02, 7, 0xFFFFFFFF)]
      (init_cmd_state 0)).cmd_queue =
      ([(0x0A01, 5, 6), (0x0B02, 7, 0xFFFFFFFF)] :
        List (Nat × Nat × Nat)).map (fun e => cmd_ptr_bytes e.1) ∧
    (run_enqueues [(0x0A01, 5, 6), (0x0B02, 7, 0xFFFFFFFF)]
      (init_cmd_state 0)).cmd_args_queue =
      ([(0x0A01, 5, 6), (0x0B02, 7, 0xFFFFFFFF)] :
        List (Nat × Nat × Nat)).map (fun e => cmd_args_bytes e.2.1 e.2.2) ∧
    (dequeue_cmd^[1 + 1] (run_enqueues [(0x0A01, 5, 6), (0x0B02, 7, 0xFFFFFFFF)]
      (init_cmd_state 0))).current_cmd =
      (([(0x0A01, 5, 6), (0x0B02, 7, 0xFFFFFFFF)] :
        List (Nat × Nat × Nat)).getD 1 (0, 0, 0)).1 ∧
    (dequeue_cmd^[1 + 1] (run_enqueues [(0x0A01, 5, 6), (0x0B02, 7, 0xFFFFFFFF)]
      (init_cmd_state 0))).current_cmd_arg1 =
      (([(0x0A01, 5, 6), (0x0B02, 7, 0xFFFFFFFF)] :
        List (Nat × Nat × Nat)).getD 1 (0, 0, 0)).2.1 ∧
    (dequeue_cmd^[1 + 1] (run_enqueues [(0x0A01, 5, 6), (0x0B02, 7, 0xFFFFFFFF)]
      (init_cmd_state 0))).current_cmd_arg2 =
      (([(0x0A01, 5, 6), (0x0B02, 7, 0xFFFFFFFF)] :
        List (Nat × Nat × Nat)).getD 1 (0, 0, 0)).2.2 ∧
    (dequeue_cmd^[1 + 1] (run_enqueues [(0x0A01, 5, 6), (0x0B02, 7, 0xFFFFFFFF)]
      (init_cmd_state 0))).cmd_queue =
      (([(0x0A01, 5, 6), (0x0B02, 7, 0xFFFFFFFF)] :
        List (Nat × Nat × Nat)).drop (1 + 1)).map (fun e => cmd_ptr_bytes e.1) ∧
    (dequeue_cmd^[1 + 1] (run_enqueues [(0x0A01, 5, 6), (0x0B02, 7, 0xFFFFFFFF)]
      (init_cmd_state 0))).cmd_args_queue =
      (([(0x0A01, 5, 6), (0x0B02, 7, 0xFFFFFFFF)] :
        List (Nat × Nat × Nat)).drop (1 + 1)).map
        (fun e => cmd_args_bytes e.2.1 e.2.2) :=
  enqueue_dequeue_marshaling_round_trip 0 [(0x0A01, 5, 6), (0x0B02, 7, 0xFFFFFFFF)]
    1 (by decide) (by decide)

/-! ## Automatic data collection (src/command_utilities.c, lines 30-44 and
280-312)

`auto_data_col_t` holds `{enabled, period, count}`; the periodic callback
increments each enabled config's count (uint32) and, when it reaches the
period, resets it to 0 and enqueues a collect-block command with the block
type as first argument.  The address of `col_block_cmd` is a parameter
`colBlock` (commands.c is not among the sources provided). -/

structure AutoDataCol where
  enabled : Bool
  period : Nat
  count : Nat
deriving DecidableEq

/-- Block type constants (src/command_utilities.h lines 67-69). -/
def CMD_BLOCK_EPS_HK : Nat := 0

/-- Block type constant for PAY housekeeping. -/
def CMD_BLOCK_PAY_HK : Nat := 1

/-- Block type constant for PAY optical. -/
def CMD_BLOCK_PAY_OPT : Nat := 2

/-- The three auto-data-collection configs together with the engine state
they enqueue into. -/
structure ObcAutoState where
  eps_hk : AutoDataCol
  pay_hk : AutoDataCol
  pay_opt : AutoDataCol
  eng : CmdState
deriving DecidableEq

/-- `auto_data_col_timer_cb` (src/command_utilities.c lines 280-312): for
each of the three configs in order, if enabled, increment its count
(uint32); if the count reaches the period, reset it to 0 and enqueue
`col_block_cmd` with the block type and argument 0. -/
def auto_data_col_timer_cb (colBlock : Nat) (s : ObcAutoState) : ObcAutoState :=
  let s1 :=
    if s.eps_hk.enabled then
      let cnt := (s.eps_hk.count + 1) % 2 ^ 32
      if cnt ≥ s.eps_hk.period then
        { s with eps_hk := { s.eps_hk with count := 0 },
                 eng := enqueue_cmd colBlock CMD_BLOCK_EPS_HK 0 s.eng }
      else { s with eps_hk := { s.eps_hk with count := cnt } }
    else s
  let s2 :=
    if s1.pay_hk.enabled then
      let cnt := (s1.pay_hk.count + 1) % 2 ^ 32
      if cnt ≥ s1.pay_hk.period then
        { s1 with pay_hk := { s1.pay_hk with count := 0 },
                  eng := enqueue_cmd colBlock CMD_BLOCK_PAY_HK 0 s1.eng }
      else { s1 with pay_hk := { s1.pay_hk with count := cnt } }
    else s1
  if s2.pay_opt.enabled then
    let cnt := (s2.pay_opt.count + 1) % 2 ^ 32
    if cnt ≥ s2.pay_opt.period then
      { s2 with pay_opt := { s2.pay_opt with count := 0 },
                eng := enqueue_cmd colBlock CMD_BLOCK_PAY_OPT 0 s2.eng }
    else { s2 with pay_opt := { s2.pay_opt with count := cnt } }
  else s2

lemma auto_cb_eps_progress (colBlock : Nat) (e : CmdState)
    (p c P2 c2 P3 c3 : Nat) (h1 : c + 1 < p) (h2 : p ≤ 2 ^ 32) :
    auto_data_col_timer_cb colBlock
      ⟨⟨true, p, c⟩, ⟨false, P2, c2⟩, ⟨false, P3, c3⟩, e⟩ =
      ⟨⟨true, p, c + 1⟩, ⟨false, P2, c2⟩, ⟨false, P3, c3⟩, e⟩ := by
  simp only [auto_data_col_timer_cb]
  rw [Nat.mod_eq_of_lt (by omega)]
  simp only [if_true, eq_self_iff_true]
  rw [if_neg (by omega : ¬(c + 1 ≥ p))]
  simp

lemma auto_cb_eps_fire (colBlock : Nat) (e : CmdState)
    (p c P2 c2 P3 c3 : Nat) (h1 : c + 1 ≥ p) (h2 : c + 1 < 2 ^ 32) :
    auto_data_col_timer_cb colBlock
      ⟨⟨true, p, c⟩, ⟨false, P2, c2⟩, ⟨false, P3, c3⟩, e⟩ =
      ⟨⟨true, p, 0⟩, ⟨false, P2, c2⟩, ⟨false, P3, c3⟩,
       enqueue_cmd colBlock CMD_BLOCK_EPS_HK 0 e⟩ := by
  simp only [auto_data_col_timer_cb]
  rw [Nat.mod_eq_of_lt (by omega)]
  simp only [if_true, eq_self_iff_true]
  rw [if_pos (by omega : c + 1 ≥ p)]
  simp

lemma auto_cb_eps_iterate (colBlock : Nat) (e : CmdState)
    (p P2 c2 P3 c3 : Nat) (hp : p ≤ 2 ^ 32) :
    ∀ k c : Nat, c + k < p →
    (auto_data_col_timer_cb colBlock)^[k]
      ⟨⟨true, p, c⟩, ⟨false, P2, c2⟩, ⟨false, P3, c3⟩, e⟩ =
      ⟨⟨true, p, c + k⟩, ⟨false, P2, c2⟩, ⟨false, P3, c3⟩, e⟩ := by
  intro k
  induction k with
  | zero => intro c _; rfl
  | succ k ih =>
      intro c hck
      rw [Function.iterate_succ_apply,
        auto_cb_eps_progress colBlock e p c P2 c2 P3 c3 (by omega) hp,
        ih (c + 1) (by omega)]
      congr 1
      simp
      omega

lemma auto_cb_pay_hk_progress (colBlock : Nat) (e : CmdState)
    (p c P1 c1 P3 c3 : Nat) (h1 : c + 1 < p) (h2 : p ≤ 2 ^ 32) :
    auto_data_col_timer_cb colBlock
      ⟨⟨false, P1, c1⟩, ⟨true, p, c⟩, ⟨false, P3, c3⟩, e⟩ =
      ⟨⟨false, P1, c1⟩, ⟨true, p, c + 1⟩, ⟨false, P3, c3⟩, e⟩ := by
  simp only [auto_data_col_timer_cb, Bool.false_eq_true, if_false, if_true,
    eq_self_iff_true]
  rw [Nat.mod_eq_of_lt (show c + 1 < 2 ^ 32 from by omega)]
  rw [if_neg (by omega : ¬(c + 1 ≥ p))]
  simp

lemma auto_cb_pay_hk_fire (colBlock : Nat) (e : CmdState)
    (p c P1 c1 P3 c3 : Nat) (h1 : c + 1 ≥ p) (h2 : c + 1 < 2 ^ 32) :
    auto_data_col_timer_cb colBlock
      ⟨⟨false, P1, c1⟩, ⟨true, p, c⟩, ⟨false, P3, c3⟩, e⟩ =
      ⟨⟨false, P1, c1⟩, ⟨true, p, 0⟩, ⟨false, P3, c3⟩,
       enqueue_cmd colBlock CMD_BLOCK_PAY_HK 0 e⟩ := by
  simp only [auto_data_col_timer_cb, Bool.false_eq_true, if_false, if_true,
    eq_self_iff_true]
  rw [Nat.mod_eq_of_lt (show c + 1 < 2 ^ 32 from by omega)]
  rw [if_pos (by omega : c + 1 ≥ p)]
  simp

lemma auto_cb_pay_hk_iterate (colBlock : Nat) (e : CmdState)
    (p P1 c1 P3 c3 : Nat) (hp : p ≤ 2 ^ 32) :
    ∀ k c : Nat, c + k < p →
    (auto_data_col_timer_cb colBlock)^[k]
      ⟨⟨false, P1, c1⟩, ⟨true, p, c⟩, ⟨false, P3, c3⟩, e⟩ =
      ⟨⟨false, P1, c1⟩, ⟨true, p, c + k⟩, ⟨false, P3, c3⟩, e⟩ := by
  intro k
  induction k with
  | zero => intro c _; rfl
  | succ k ih =>
      intro c hck
      rw [Function.iterate_succ_apply,
        auto_cb_pay_hk_progress colBlock e p c P1 c1 P3 c3 (by omega) hp,
        ih (c + 1) (by omega)]
      congr 1
      simp
      omega

lemma auto_cb_pay_opt_progress (colBlock : Nat) (e : CmdState)
    (p c P1 c1 P2 c2 : Nat) (h1 : c + 1 < p) (h2 : p ≤ 2 ^ 32) :
    auto_data_col_timer_cb colBlock
      ⟨⟨false, P1, c1⟩, ⟨false, P2, c2⟩, ⟨true, p, c⟩, e⟩ =
      ⟨⟨false, P1, c1⟩, ⟨false, P2, c2⟩, ⟨true, p, c + 1⟩, e⟩ := by
  simp only [auto_data_col_timer_cb, Bool.false_eq_true, if_false, if_true,
    eq_self_iff_true]
  rw [Nat.mod_eq_of_lt (show c + 1 < 2 ^ 32 from by omega)]
  rw [if_neg (by omega : ¬(c + 1 ≥ p))]

lemma auto_cb_pay_opt_fire (colBlock : Nat) (e : CmdState)
    (p c P1 c1 P2 c2 : Nat) (h1 : c + 1 ≥ p) (h2 : c + 1 < 2 ^ 32) :
    auto_data_col_timer_cb colBlock
      ⟨⟨false, P1, c1⟩, ⟨false, P2, c2⟩, ⟨true, p, c⟩, e⟩ =
      ⟨⟨false, P1, c1⟩, ⟨false, P2, c2⟩, ⟨true, p, 0⟩,
       enqueue_cmd colBlock CMD_BLOCK_PAY_OPT 0 e⟩ := by
  simp only [auto_data_col_timer_cb, Bool.false_eq_true, if_false, if_true,
    eq_self_iff_true]
  rw [Nat.mod_eq_of_lt (show c + 1 < 2 ^ 32 from by omega)]
  rw [if_pos (by omega : c + 1 ≥ p)]

lemma auto_cb_pay_opt_iterate (colBlock : Nat) (e : CmdState)
    (p P1 c1 P2 c2 : Nat) (hp : p ≤ 2 ^ 32) :
    ∀ k c : Nat, c + k < p →
    (auto_data_col_timer_cb colBlock)^[k]
      ⟨⟨false, P1, c1⟩, ⟨false, P2, c2⟩, ⟨true, p, c⟩, e⟩ =
      ⟨⟨false, P1, c1⟩, ⟨false, P2, c2⟩, ⟨true, p, c + k⟩, e⟩ := by
  intro k
  induction k with
  | zero => intro c _; rfl
  | succ k ih =>
      intro c hck
      rw [Function.iterate_succ_apply,
        auto_cb_pay_opt_progress colBlock e p c P1 c1 P2 c2 (by omega) hp,
        ih (c + 1) (by omega)]
      congr 1
      simp
      omega

lemma auto_cb_disabled_id (colBlock : Nat) (t : ObcAutoState)
    (h1 : t.eps_hk.enabled = false) (h2 : t.pay_hk.enabled = false)
    (h3 : t.pay_opt.enabled = false) :
    auto_data_col_timer_cb colBlock t = t := by
  obtain ⟨⟨e1, p1, c1⟩, ⟨e2, p2, c2⟩, ⟨e3, p3, c3⟩, eng⟩ := t
  simp only at h1 h2 h3
  subst h1 h2 h3
  simp [auto_data_col_timer_cb]

/-- C8: auto data collection period.  For each block type in turn, with
that config enabled at period 80 and count 0 and the other two disabled,
the first 79 ticks of `auto_data_col_timer_cb` inject no collect-block
command and only advance the count, and the 80th tick enqueues exactly one
collect-block command for that block type and resets the count to 0; a
state whose three configs are all disabled is left completely unchanged by
a tick. -/
theorem auto_data_col_timer_cb_period_80 (nop colBlock : Nat) :
    (∀ k : Nat, k ≤ 79 →
      (auto_data_col_timer_cb colBlock)^[k]
        ⟨⟨true, 80, 0⟩, ⟨false, 120, 0⟩, ⟨false, 300, 0⟩, init_cmd_state nop⟩ =
        ⟨⟨true, 80, k⟩, ⟨false, 120, 0⟩, ⟨false, 300, 0⟩, init_cmd_state nop⟩) ∧
    (auto_data_col_timer_cb colBlock)^[80]
      ⟨⟨true, 80, 0⟩, ⟨false, 120, 0⟩, ⟨false, 300, 0⟩, init_cmd_state nop⟩ =
      ⟨⟨true, 80, 0⟩, ⟨false, 120, 0⟩, ⟨false, 300, 0⟩,
       enqueue_cmd colBlock CMD_BLOCK_EPS_HK 0 (init_cmd_state nop)⟩ ∧
    (∀ k : Nat, k ≤ 79 →
      (auto_data_col_timer_cb colBlock)^[k]
        ⟨⟨false, 60, 0⟩, ⟨true, 80, 0⟩, ⟨false, 300, 0⟩, init_cmd_state nop⟩ =
        ⟨⟨false, 60, 0⟩, ⟨true, 80, k⟩, ⟨false, 300, 0⟩, init_cmd_state nop⟩) ∧
    (auto_data_col_timer_cb colBlock)^[80]
      ⟨⟨false, 60, 0⟩, ⟨true, 80, 0⟩, ⟨false, 300, 0⟩, init_cmd_state nop⟩ =
      ⟨⟨false, 60, 0⟩, ⟨true, 80, 0⟩, ⟨false, 300, 0⟩,
       enqueue_cmd colBlock CMD_BLOCK_PAY_HK 0 (init_cmd_state nop)⟩ ∧
    (∀ k : Nat, k ≤ 79 →
      (auto_data_col_timer_cb colBlock)^[k]
        ⟨⟨false, 60, 0⟩, ⟨false, 120, 0⟩, ⟨true, 80, 0⟩, init_cmd_state nop⟩ =
        ⟨⟨false, 60, 0⟩, ⟨false, 120, 0⟩, ⟨true, 80, k⟩, init_cmd_state nop⟩) ∧
    (auto_data_col_timer_cb colBlock)^[80]
      ⟨⟨false, 60, 0⟩, ⟨false, 120, 0⟩, ⟨true, 80, 0⟩, init_cmd_state nop⟩ =
      ⟨⟨false, 60, 0⟩, ⟨false, 120, 0⟩, ⟨true, 80, 0⟩,
       enqueue_cmd colBlock CMD_BLOCK_PAY_OPT 0 (init_cmd_state nop)⟩ ∧
    (∀ t : ObcAutoState, t.eps_hk.enabled = false → t.pay_hk.enabled = false →
      t.pay_opt.enabled = false → auto_data_col_timer_cb colBlock t = t) := by
  have heps : ∀ k : Nat, k ≤ 79 →
      (auto_data_col_timer_cb colBlock)^[k]
        ⟨⟨true, 80, 0⟩, ⟨false, 120, 0⟩, ⟨false, 300, 0⟩, init_cmd_state nop⟩ =
        ⟨⟨true, 80, k⟩, ⟨false, 120, 0⟩, ⟨false, 300, 0⟩, init_cmd_state nop⟩ := by
    intro k hk
    have := auto_cb_eps_iterate colBlock (init_cmd_state nop) 80 120 0 300 0
      (by norm_num) k 0 (by omega)
    simpa using this
  have hpayhk : ∀ k : Nat, k ≤ 79 →
      (auto_data_col_timer_cb colBlock)^[k]
        ⟨⟨false, 60, 0⟩, ⟨true, 80, 0⟩, ⟨false, 300, 0⟩, init_cmd_state nop⟩ =
        ⟨⟨false, 60, 0⟩, ⟨true, 80, k⟩, ⟨false, 300, 0⟩, init_cmd_state nop⟩ := by
    intro k hk
    have := auto_cb_pay_hk_iterate colBlock (init_cmd_state nop) 80 60 0 300 0
      (by norm_num) k 0 (by omega)
    simpa using this
  have hpayopt : ∀ k : Nat, k ≤ 79 →
      (auto_data_col_timer_cb colBlock)^[k]
        ⟨⟨false, 60, 0⟩, ⟨false, 120, 0⟩, ⟨true, 80, 0⟩, init_cmd_state nop⟩ =
        ⟨⟨false, 60, 0⟩, ⟨false, 120, 0⟩, ⟨true, 80, k⟩, init_cmd_state nop⟩ := by
    intro k hk
    have := auto_cb_pay_opt_iterate colBlock (init_cmd_state nop) 80 60 0 120 0
      (by norm_num) k 0 (by omega)
    simpa using this
  refine ⟨heps, ?_, hpayhk, ?_, hpayopt, ?_, auto_cb_disabled_id colBlock⟩
  · rw [show (80 : Nat) = 79 + 1 from by norm_num, Function.iterate_succ_apply',
      heps 79 (by norm_num)]
    exact auto_cb_eps_fire colBlock (init_cmd_state nop) 80 79 120 0 300 0
      (by norm_num) (by norm_num)
  · rw [show (80 : Nat) = 79 + 1 from by norm_num, Function.iterate_succ_apply',
      hpayhk 79 (by norm_num)]
    exact auto_cb_pay_hk_fire colBlock (init_cmd_state nop) 80 79 60 0 300 0
      (by norm_num) (by norm_num)
  · rw [show (80 : Nat) = 79 + 1 from by norm_num, Function.iterate_succ_apply',
      hpayopt 79 (by norm_num)]
    exact auto_cb_pay_opt_fire colBlock (init_cmd_state nop) 80 79 60 0 120 0
      (by norm_num) (by norm_num)

/-- Witness for C8: the EPS config at tick 79 and tick 80, and a tick on a
fully disabled state. -/
theorem auto_data_col_timer_cb_period_80_witness :
    (auto_data_col_timer_cb 6)^[79]
      ⟨⟨true, 80, 0⟩, ⟨false, 120, 0⟩, ⟨false, 300, 0⟩, init_cmd_state 0⟩ =
      ⟨⟨true, 80, 79⟩, ⟨false, 120, 0⟩, ⟨false, 300, 0⟩, init_cmd_state 0⟩ ∧
    (auto_data_col_timer_cb 6)^[80]
      ⟨⟨true, 80, 0⟩, ⟨false, 120, 0⟩, ⟨false, 300, 0⟩, init_cmd_state 0⟩ =
      ⟨⟨true, 80, 0⟩, ⟨false, 120, 0⟩, ⟨false, 300, 0⟩,
       enqueue_cmd 6 CMD_BLOCK_EPS_HK 0 (init_cmd_state 0)⟩ ∧
    auto_data_col_timer_cb 6
      ⟨⟨false, 60, 3⟩, ⟨false, 120, 4⟩, ⟨false, 300, 5⟩, init_cmd_state 0⟩ =
      ⟨⟨false, 60, 3⟩, ⟨false, 120, 4⟩, ⟨false, 300, 5⟩, init_cmd_state 0⟩ :=
  ⟨(auto_data_col_timer_cb_period_80 0 6).1 79 (by decide),
   (auto_data_col_timer_cb_period_80 0 6).2.1,
   (auto_data_col_timer_cb_period_80 0 6).2.2.2.2.2.2
     ⟨⟨false, 60, 3⟩, ⟨false, 120, 4⟩, ⟨false, 300, 5⟩, init_cmd_state 0⟩
     rfl rfl rfl⟩
